import Mathlib

/-!
Verification of the contract-intelligence ingestion core.

A shallow embedding, in Lean 4, of the clause-aware chunker and the hybrid
extraction engine of the contract-intelligence repository
(`src/ingestion/chunker.py`, `src/ingestion/hybrid_extractor.py`,
`src/ingestion/regex_extractors.py`, `src/ingestion/llm_extractors.py`,
`src/ingestion/docx_parser.py`), together with theorems settling the frozen
claims about them.

Modelling conventions:
* Python strings are `List Char` (`Chars`); all functions are executable.
* Python `float` dollar amounts are modelled as `ℚ`.  The claims under
  consideration depend on which amounts are present, on comparisons against
  powers of ten and on zero tests, never on binary rounding, so the rational
  model is faithful for them.
* Each `re` pattern used by the code is given a dedicated executable matcher
  whose semantics (leftmost match, greedy/lazy repetition, MULTILINE `$`,
  backtracking where the pattern can actually backtrack) follows the pattern
  it models; each matcher carries a comment naming its pattern.
* Python dicts whose keys are fixed by the code become structures with
  `Option` fields; `dict.get(k, default)` becomes `Option.getD`.
-/

set_option maxRecDepth 8000

namespace ContractIntel

abbrev Chars := List Char

/-! ## Python string primitives -/

/-- Python's `\s` / `str.strip` whitespace class, for ASCII text. -/
def pyWs (c : Char) : Bool :=
  c == ' ' || c == '\t' || c == '\n' || c == '\r' || c == '\x0B' || c == '\x0C'

/-- Python `str.strip()`: drop whitespace from both ends. -/
def pystrip (s : Chars) : Chars :=
  ((s.dropWhile pyWs).reverse.dropWhile pyWs).reverse

/-- `true` iff the string has at least one non-whitespace character. -/
def hasNonWs (s : Chars) : Bool := s.any (fun c => !(pyWs c))

/-- Python `str.startswith` (first argument is the needle). -/
def pyStartsWith : Chars → Chars → Bool
  | [], _ => true
  | _ :: _, [] => false
  | a :: as, b :: bs => a == b && pyStartsWith as bs

/-- Python `needle in hay` substring test. -/
def pyIn (needle : Chars) : Chars → Bool
  | [] => pyStartsWith needle []
  | s@(_ :: t) => pyStartsWith needle s || pyIn needle t

/-- One step of `str.replace`: non-overlapping left-to-right replacement,
with fuel (one unit per consumed character suffices). -/
def pyReplaceGo (old new : Chars) : Nat → Chars → Chars
  | 0, s => s
  | _ + 1, [] => []
  | fuel + 1, s@(c :: t) =>
    if !old.isEmpty && pyStartsWith old s then new ++ pyReplaceGo old new fuel (s.drop old.length)
    else c :: pyReplaceGo old new fuel t

/-- Python `s.replace(old, new)` for a non-empty `old`. -/
def pyReplace (s old new : Chars) : Chars := pyReplaceGo old new (s.length + 1) s

/-- Python `sep.join(parts)`. -/
def joinSep (sep : Chars) : List Chars → Chars
  | [] => []
  | [l] => l
  | l :: l2 :: ls => l ++ sep ++ joinSep sep (l2 :: ls)

/-- `(l.map f).flatten`, the shape of the chunker's per-section dispatch. -/
def concatMap (f : α → List β) (l : List α) : List β := (l.map f).flatten

/-! ## Matchers for the regular expressions of `chunker.py`

`searchLabel lbl` models `re.search(lbl + r"\s*(.+?)$", text, re.MULTILINE)`
for a literal label `lbl`, returning the first group.  The engine takes the
leftmost occurrence of the label at which the tail can match; at such an
occurrence the greedy `\s*` (which may cross line breaks) is followed by the
lazy `(.+?)` which, `.` not matching a newline and `$` matching exactly at
line ends, captures up to the end of the current line.  When the whitespace
run reaches the end of the input the engine backtracks inside the run; the
group that survives is the last character of the run that is not a newline
(everything after it is newlines, so `$` fires right after it). -/

/-- Tail matcher for `\s*(.+?)$` at a fixed position. -/
def starLazyToEol (s : Chars) : Option Chars :=
  match s.dropWhile pyWs with
  | c :: cs => some ((c :: cs).takeWhile (fun x => x != '\n'))
  | [] =>
    match s.reverse.dropWhile (fun x => x == '\n') with
    | e :: _ => some [e]
    | [] => none

/-- `re.search` for `LABEL\s*(.+?)$` (MULTILINE): scan positions left to
right; where the literal label matches, try the tail, else (or when the tail
fails) move one position onward. -/
def searchLabel (lbl : Chars) : Chars → Option Chars
  | [] => none
  | s@(_ :: t) =>
    if pyStartsWith lbl s then
      match starLazyToEol (s.drop lbl.length) with
      | some g => some g
      | none => searchLabel lbl t
    else searchLabel lbl t

/-- `extract_contract_number` (chunker.py):
`re.search(r"CONTRACT NUMBER:\s*(.+?)$", text, re.MULTILINE)`, stripped group
on a match, `"UNKNOWN"` otherwise. -/
def extract_contract_number (text : Chars) : Chars :=
  match searchLabel ("CONTRACT NUMBER:".toList) text with
  | some g => pystrip g
  | none => "UNKNOWN".toList

/-- Length of the maximal whitespace run at the head (a greedy `\s*`/`\s+`). -/
def wsRun (s : Chars) : Nat := (s.takeWhile pyWs).length

/-- Character class `[\d.]`. -/
def digitOrDot (c : Char) : Bool := c.isDigit || c == '.'

/-- Tail matcher for `\s+(.+?)$` at a fixed position: as `starLazyToEol`,
but the whitespace run must be non-empty; in the backtracking case the last
non-newline character must not sit at the very start (at least one whitespace
character has to remain consumed by `\s+`).  Returns the group and the number
of characters consumed. -/
def plusLazyToEol (s : Chars) : Option (Chars × Nat) :=
  match s with
  | [] => none
  | c :: _ =>
    if pyWs c then
      match s.dropWhile pyWs with
      | d :: ds =>
        let g := (d :: ds).takeWhile (fun x => x != '\n')
        some (g, wsRun s + g.length)
      | [] =>
        match s.reverse.dropWhile (fun x => x == '\n') with
        | e :: _ :: _ => some ([e], (s.reverse.dropWhile (fun x => x == '\n')).length)
        | _ => none
    else none

/-- `CLAUSE_PATTERN = r"^\s+((?:FAR|DFARS)\s+[\d.]+-[\d]+)\s+-\s+(.+?)$"`
(MULTILINE) attempted with the match starting at this position (which the
caller guarantees to be a line start).  The greedy runs (`\s+`, `[\d.]+`,
`[\d]+`) never need backtracking against the literal that follows them, the
follower being outside the repeated class; the only real backtracking, inside
the final `\s+(.+?)$`, is in `plusLazyToEol`.  Returns
(group 1, group 2, match length). -/
def clauseTry (s : Chars) : Option (Chars × Chars × Nat) :=
  let w := wsRun s
  if w = 0 then none else
  let s1 := s.drop w
  let kw : Option Nat :=
    if pyStartsWith ("FAR".toList) s1 then some 3
    else if pyStartsWith ("DFARS".toList) s1 then some 5
    else none
  match kw with
  | none => none
  | some k =>
    let s2 := s1.drop k
    let w2 := wsRun s2
    if w2 = 0 then none else
    let s3 := s2.drop w2
    let n1 := (s3.takeWhile digitOrDot).length
    if n1 = 0 then none else
    match s3.drop n1 with
    | '-' :: s5 =>
      let d := (s5.takeWhile (fun c => c.isDigit)).length
      if d = 0 then none else
      let s6 := s5.drop d
      let g1 := s1.take (k + w2 + n1 + 1 + d)
      let w3 := wsRun s6
      if w3 = 0 then none else
      match s6.drop w3 with
      | '-' :: s8 =>
        match plusLazyToEol s8 with
        | some (g2, c8) => some (g1, g2, w + k + w2 + n1 + 1 + d + w3 + 1 + c8)
        | none => none
      | _ => none
    | _ => none

/-- `finditer` driver for `CLAUSE_PATTERN`: because of the `^` anchor only
line starts can begin a match; after a match the scan resumes at the match
end (which is never a line start, the last captured character not being a
newline).  Fuel: one unit per consumed character. -/
def clauseFindAux : Nat → Chars → Nat → Bool → List (Nat × Chars × Chars)
  | 0, _, _, _ => []
  | _ + 1, [], _, _ => []
  | fuel + 1, s@(c :: t), i, atLS =>
    if atLS then
      match clauseTry s with
      | some (g1, g2, len) => (i, g1, g2) :: clauseFindAux fuel (s.drop len) (i + len) false
      | none => clauseFindAux fuel t (i + 1) (c == '\n')
    else clauseFindAux fuel t (i + 1) (c == '\n')

/-- `CLAUSE_PATTERN.finditer(section_text)` as (start, group 1, group 2). -/
def clauseFinditer (s : Chars) : List (Nat × Chars × Chars) :=
  clauseFindAux (s.length + 1) s 0 true

/-- The `clause_positions` list of `chunk_clause_section`: match start plus
the two stripped groups. -/
def clause_positions (st : Chars) : List (Nat × Chars × Chars) :=
  (clauseFinditer st).map (fun p => (p.1, pystrip p.2.1, pystrip p.2.2))

/-- Generic `finditer` driver for the one-group CLIN / subcontractor
patterns (both `^`-anchored); `tryF` must only succeed at line starts. -/
def findIterAux (tryF : Chars → Option (Chars × Nat)) :
    Nat → Chars → Nat → Bool → List (Nat × Chars)
  | 0, _, _, _ => []
  | _ + 1, [], _, _ => []
  | fuel + 1, s@(c :: t), i, atLS =>
    if atLS then
      match tryF s with
      | some (g, len) => (i, g) :: findIterAux tryF fuel (s.drop len) (i + len) false
      | none => findIterAux tryF fuel t (i + 1) (c == '\n')
    else findIterAux tryF fuel t (i + 1) (c == '\n')

def findIter (tryF : Chars → Option (Chars × Nat)) (s : Chars) : List (Nat × Chars) :=
  findIterAux tryF (s.length + 1) s 0 true

/-- `r"^\s+CLIN\s+(\d+):"` (MULTILINE) attempted at a line start. -/
def clinTry (s : Chars) : Option (Chars × Nat) :=
  let w := wsRun s
  if w = 0 then none else
  let s1 := s.drop w
  if pyStartsWith ("CLIN".toList) s1 then
    let s2 := s1.drop 4
    let w2 := wsRun s2
    if w2 = 0 then none else
    let s3 := s2.drop w2
    let d := (s3.takeWhile (fun c => c.isDigit)).length
    if d = 0 then none else
    match s3.drop d with
    | ':' :: _ => some (s3.take d, w + 4 + w2 + d + 1)
    | _ => none
  else none

/-- `r"^\s+Subcontractor:\s+(.+?)$"` (MULTILINE) attempted at a line start. -/
def subTry (s : Chars) : Option (Chars × Nat) :=
  let w := wsRun s
  if w = 0 then none else
  let s1 := s.drop w
  if pyStartsWith ("Subcontractor:".toList) s1 then
    match plusLazyToEol (s1.drop 14) with
    | some (g, c8) => some (g, w + 14 + c8)
    | none => none
  else none

def clinPositions (st : Chars) : List (Nat × Chars) := findIter clinTry st

def subPositions (st : Chars) : List (Nat × Chars) := findIter subTry st

/-! ## Dollar amounts (`_parse_dollar_amount`) and value labels -/

/-- Character class `[\d,]`. -/
def digitComma (c : Char) : Bool := c.isDigit || c == ','

/-- Numeric value of a digit string (empty gives 0; callers guard). -/
def natOfDigits (ds : Chars) : Nat := ds.foldl (fun a c => 10 * a + (c.toNat - 48)) 0

/-- Python `float(ip + "." + fp)` for an integer part `ip` and fraction
digits `fp`, commas already removed: `none` models the `ValueError` raised
when both parts are empty (`float("")`). -/
def decimalOfParts (ip fp : Chars) : Option ℚ :=
  if ip.isEmpty && fp.isEmpty then none
  else some (mkRat (natOfDigits ip * 10 ^ fp.length + natOfDigits fp) (10 ^ fp.length))

/-- `r"\$[\d,]+(?:\.\d+)?"` attempted at this position: a literal `$`, a
non-empty greedy `[\d,]+` run, then optionally `.` followed by a non-empty
greedy digit run.  Returns (mantissa with commas, fraction digits, length). -/
def dollarTokenAt (s : Chars) : Option (Chars × Chars × Nat) :=
  match s with
  | '$' :: t =>
    let man := t.takeWhile digitComma
    if man.isEmpty then none else
    match t.drop man.length with
    | '.' :: r2 =>
      let fr := r2.takeWhile (fun c => c.isDigit)
      if fr.isEmpty then some (man, [], 1 + man.length)
      else some (man, fr, 1 + man.length + 1 + fr.length)
    | _ => some (man, [], 1 + man.length)
  | _ => none

/-- `re.search(r"\$[\d,]+(?:\.\d+)?", raw)`: leftmost occurrence. -/
def findDollarToken : Chars → Option (Chars × Chars)
  | [] => none
  | s@(_ :: t) =>
    match dollarTokenAt s with
    | some (m, f, _) => some (m, f)
    | none => findDollarToken t

/-- `_parse_dollar_amount` (chunker.py): search the dollar pattern, strip
`$` and commas, parse as a float; `None` on no match or unparsable digits. -/
def parse_dollar_amount (raw : Chars) : Option ℚ :=
  (findDollarToken raw).bind
    (fun p => decimalOfParts (p.1.filter (fun c => c != ',')) p.2)

/-- Round half to even to an integer, the rounding of Python float
formatting (modelled on the exact rational). -/
def rheRound (q : ℚ) : Int :=
  let f := q.floor
  let rnum : Int := q.num - f * (q.den : Int)
  if 2 * rnum > (q.den : Int) then f + 1
  else if 2 * rnum < (q.den : Int) then f
  else if f % 2 = 0 then f else f + 1

/-- Exact multiplication of a rational by a natural number, written with
`mkRat` so that kernel evaluation can reduce it (the `Rat` arithmetic of
the library is `@[irreducible]`). -/
def ratMulNat (q : ℚ) (n : Nat) : ℚ := mkRat (q.num * n) q.den

/-- Exact division of a rational by a positive natural number, written with
`mkRat` for the same reason. -/
def ratDivNat (q : ℚ) (n : Nat) : ℚ := mkRat q.num (q.den * n)

/-- Decimal digits of a natural number. -/
def natDigitChars (n : Nat) : Chars := Nat.toDigits 10 n

/-- Insert thousands separators into a reversed digit string. -/
def group3 : Chars → Chars
  | a :: b :: c :: d :: rest => a :: b :: c :: ',' :: group3 (d :: rest)
  | l => l

/-- `f"{n:,}"` for a natural number. -/
def groupedDigits (n : Nat) : Chars := (group3 (natDigitChars n).reverse).reverse

/-- Two zero-padded digits. -/
def twoDigits (n : Nat) : Chars :=
  if n < 10 then '0' :: natDigitChars n else natDigitChars n

/-- `f"${q:,.2f}"` body (without the dollar sign) for a non-negative
amount — negative amounts never reach the renderer. -/
def pyMoney (q : ℚ) : Chars :=
  let cents := (rheRound (ratMulNat q 100)).toNat
  groupedDigits (cents / 100) ++ '.' :: twoDigits (cents % 100)

/-- `f"{q:.1f}"` for a non-negative amount. -/
def fmt1 (q : ℚ) : Chars :=
  let t := (rheRound (ratMulNat q 10)).toNat
  natDigitChars (t / 10) ++ '.' :: natDigitChars (t % 10)

/-- `f"{q:.0f}"` for a non-negative amount. -/
def fmt0 (q : ℚ) : Chars := natDigitChars (rheRound q).toNat

/-- `f"{q:,.0f}"` for a non-negative amount. -/
def fmtComma0 (q : ℚ) : Chars := groupedDigits (rheRound q).toNat

/-- `_format_value_label` (chunker.py). -/
def format_value_label (amount : ℚ) : Chars :=
  if amount ≥ 1000000000 then '$' :: fmt1 (ratDivNat amount 1000000000) ++ "B".toList
  else if amount ≥ 1000000 then '$' :: fmt1 (ratDivNat amount 1000000) ++ "M".toList
  else if amount ≥ 1000 then '$' :: fmt0 (ratDivNat amount 1000) ++ "K".toList
  else '$' :: fmtComma0 amount

/-! ## Chunk metadata and `extract_contract_metadata` -/

/-- The metadata dict carried by a chunk.  Its keys are fixed by the code:
the first four are set by the section-specific chunkers, the rest arrive via
`chunk.metadata.update(contract_metadata)`.  An absent key is `none`. -/
structure ChunkMeta where
  flowdown : Option Bool := none
  clause_type : Option Chars := none
  clin_number : Option Chars := none
  subcontractor_name : Option Chars := none
  contracting_officer : Option Chars := none
  contracting_agency : Option Chars := none
  contract_type : Option Chars := none
  funded_amount : Option ℚ := none
  base_value : Option ℚ := none
  ceiling_value : Option ℚ := none
  value_label : Option Chars := none
deriving DecidableEq

/-- Key overwrite of `dict.update`: the new value wins when present. -/
def ovr (new old : Option α) : Option α :=
  match new with
  | some v => some v
  | none => old

/-- `chunk.metadata.update(contract_metadata)`: the contract-level dict can
only hold the seven contract-level keys, so only those are overwritten. -/
def ChunkMeta.updateWith (m cm : ChunkMeta) : ChunkMeta :=
  { m with
    contracting_officer := ovr cm.contracting_officer m.contracting_officer
    contracting_agency := ovr cm.contracting_agency m.contracting_agency
    contract_type := ovr cm.contract_type m.contract_type
    funded_amount := ovr cm.funded_amount m.funded_amount
    base_value := ovr cm.base_value m.base_value
    ceiling_value := ovr cm.ceiling_value m.ceiling_value
    value_label := ovr cm.value_label m.value_label }

/-- A dollar field is truthy in Python iff present and non-zero. -/
def qTruthy : Option ℚ → Option ℚ
  | some q => if q = 0 then none else some q
  | none => none

/-- The `if funded: elif base: elif ceiling:` label chain of
`extract_contract_metadata` (Python truthiness: absent or zero falls
through). -/
def valueLabelOf (fa bv cv : Option ℚ) : Option Chars :=
  match qTruthy fa, qTruthy bv, qTruthy cv with
  | some q, _, _ => some (format_value_label q ++ " funded".toList)
  | none, some q, _ => some (format_value_label q ++ " base value".toList)
  | none, none, some q => some (format_value_label q ++ " ceiling".toList)
  | none, none, none => none

/-- `extract_contract_metadata` (chunker.py): six labelled line scans (each
the `LABEL\s*(.+?)$` pattern), dollar parsing for the three value fields,
and the value label built from the first truthy of funded / base / ceiling. -/
def extract_contract_metadata (text : Chars) : ChunkMeta :=
  let off := (searchLabel ("CONTRACTING OFFICER:".toList) text).map pystrip
  let ag := (searchLabel ("CONTRACTING AGENCY:".toList) text).map pystrip
  let ty := (searchLabel ("CONTRACT TYPE:".toList) text).map pystrip
  let fa := (searchLabel ("Funded Amount:".toList) text).bind parse_dollar_amount
  let bv := (searchLabel ("Base Period Value:".toList) text).bind parse_dollar_amount
  let cv := (searchLabel ("Contract Ceiling:".toList) text).bind parse_dollar_amount
  { contracting_officer := off, contracting_agency := ag, contract_type := ty,
    funded_amount := fa, base_value := bv, ceiling_value := cv,
    value_label := valueLabelOf fa bv cv }

/-- A `f"{tag}{v}"` part of the context prefix, kept only when truthy. -/
def optPart (tag : String) (o : Option Chars) : List Chars :=
  match o with
  | some v => if v.isEmpty then [] else [tag.toList ++ v]
  | none => []

/-- `build_context_prefix` (chunker.py). -/
def build_context_prefix (contract_number : Chars) (m : ChunkMeta) : Chars :=
  let parts := ("Contract: ".toList ++ contract_number) ::
    (optPart "Officer: " m.contracting_officer ++ optPart "Agency: " m.contracting_agency ++
     optPart "Type: " m.contract_type ++ optPart "Value: " m.value_label)
  "[".toList ++ joinSep (" | ".toList) parts ++ "]\n".toList

/-! ## `ContractChunk` and the section chunkers -/

structure ContractChunk where
  text : Chars
  contract_number : Chars
  /-- `section` in the source (a Lean keyword). -/
  sectionName : Chars
  chunk_type : Chars
  clause_number : Option Chars := none
  clause_title : Option Chars := none
  metadata : ChunkMeta := {}
deriving DecidableEq

def FLOWDOWN_MARKER : Chars := "[MANDATORY FLOWDOWN]".toList

/-- Python `str.upper` for ASCII. -/
def pyUpper (s : Chars) : Chars := s.map Char.toUpper

/-- The indexed loop of `chunk_clause_section`: the chunk for position `i`
spans to the start of position `i + 1` (or the section end), stripped. -/
def buildClauseChunks (st cn clause_type : Chars) :
    List (Nat × Chars × Chars) → List ContractChunk
  | [] => []
  | (i, num, title) :: rest =>
    let endPos := match rest with | (j, _, _) :: _ => j | [] => st.length
    let ctext := pystrip ((st.drop i).take (endPos - i))
    { text := ctext
      contract_number := cn
      sectionName := clause_type ++ "_clauses".toList
      chunk_type := "clause".toList
      clause_number := some (pyReplace (pyReplace num ("FAR ".toList) []) ("DFARS ".toList) [])
      clause_title := some title
      metadata := { flowdown := some (pyIn FLOWDOWN_MARKER ctext)
                    clause_type := some (pyUpper clause_type) } }
      :: buildClauseChunks st cn clause_type rest

/-- `chunk_clause_section` (chunker.py). -/
def chunk_clause_section (section_text cn clause_type : Chars) : List ContractChunk :=
  let ps := clause_positions section_text
  if ps.isEmpty then
    if pystrip section_text ≠ [] then
      [{ text := pystrip section_text, contract_number := cn,
         sectionName := clause_type ++ "_clauses".toList, chunk_type := "clause".toList }]
    else []
  else buildClauseChunks section_text cn clause_type ps

/-- The indexed loop of `chunk_clins_section`. -/
def buildClinChunks (st cn : Chars) : List (Nat × Chars) → List ContractChunk
  | [] => []
  | (i, g) :: rest =>
    let endPos := match rest with | (j, _) :: _ => j | [] => st.length
    { text := pystrip ((st.drop i).take (endPos - i))
      contract_number := cn
      sectionName := "clins".toList
      chunk_type := "clin".toList
      metadata := { clin_number := some g } }
      :: buildClinChunks st cn rest

/-- `chunk_clins_section` (chunker.py). -/
def chunk_clins_section (section_text cn : Chars) : List ContractChunk :=
  let ps := clinPositions section_text
  if ps.isEmpty then
    if pystrip section_text ≠ [] then
      [{ text := pystrip section_text, contract_number := cn,
         sectionName := "clins".toList, chunk_type := "clin".toList }]
    else []
  else buildClinChunks section_text cn ps

/-- The indexed loop of `chunk_subcontractor_section`; the metadata name is
`match.group(1).split("(")[0].strip()`. -/
def buildSubChunks (st cn : Chars) : List (Nat × Chars) → List ContractChunk
  | [] => []
  | (i, g) :: rest =>
    let endPos := match rest with | (j, _) :: _ => j | [] => st.length
    { text := pystrip ((st.drop i).take (endPos - i))
      contract_number := cn
      sectionName := "subcontractor_requirements".toList
      chunk_type := "subcontractor".toList
      metadata := { subcontractor_name := some (pystrip (g.takeWhile (fun c => c != '('))) } }
      :: buildSubChunks st cn rest

/-- `chunk_subcontractor_section` (chunker.py). -/
def chunk_subcontractor_section (section_text cn : Chars) : List ContractChunk :=
  let ps := subPositions section_text
  if ps.isEmpty then
    if pystrip section_text ≠ [] then
      [{ text := pystrip section_text, contract_number := cn,
         sectionName := "subcontractor_requirements".toList,
         chunk_type := "subcontractor".toList }]
    else []
  else buildSubChunks section_text cn ps

/-! ## `split_into_sections` and `chunk_contract` -/

/-- `SECTION_PATTERNS` (chunker.py): each regex is a literal marker (the
parentheses in the source are group markers), matched by `re.search` on a
line, i.e. by substring containment. -/
def SECTION_MARKERS : List (Chars × Chars) :=
  [("--- CONTRACTOR INFORMATION ---".toList, "contractor_info".toList),
   ("--- TOTAL CONTRACT VALUE ---".toList, "value".toList),
   ("--- PERIOD OF PERFORMANCE ---".toList, "period_of_performance".toList),
   ("--- STATEMENT OF WORK ---".toList, "scope_of_work".toList),
   ("--- CONTRACT LINE ITEMS (CLINs) ---".toList, "clins".toList),
   ("--- APPLICABLE FAR CLAUSES ---".toList, "far_clauses".toList),
   ("--- APPLICABLE DFARS CLAUSES ---".toList, "dfars_clauses".toList),
   ("--- SUBCONTRACTOR REQUIREMENTS ---".toList, "subcontractor_requirements".toList),
   ("--- SECURITY REQUIREMENTS ---".toList, "security_requirements".toList),
   ("--- SPECIAL CONTRACT PROVISIONS ---".toList, "special_provisions".toList)]

/-- First marker (in list order) contained in the line, as in the inner
`for pattern, section_name in SECTION_PATTERNS` loop. -/
def firstMarker (line : Chars) : Option Chars :=
  (SECTION_MARKERS.find? (fun p => pyIn p.1 line)).map (fun p => p.2)

def END_MARKER : Chars := "--- END OF CONTRACT ---".toList

/-- Close the current section (skipped when it has no lines). -/
def flushSec (nm : Chars) (cur : List Chars) : List (Chars × Chars) :=
  if cur.isEmpty then [] else [(nm, joinSep ("\n".toList) cur)]

/-- The line loop of `split_into_sections`: a marker line starts a new
section (which begins with that line); a literal end-of-contract line stops
the scan; anything else extends the current section. -/
def splitGo : List Chars → Chars → List Chars → List (Chars × Chars) → List (Chars × Chars)
  | [], nm, cur, acc => acc ++ flushSec nm cur
  | l :: ls, nm, cur, acc =>
    match firstMarker l with
    | some nm2 => splitGo ls nm2 [l] (acc ++ flushSec nm cur)
    | none =>
      if pystrip l = END_MARKER then acc ++ flushSec nm cur
      else splitGo ls nm (cur ++ [l]) acc

/-- `split_into_sections` (chunker.py). -/
def split_into_sections (text : Chars) : List (Chars × Chars) :=
  splitGo (text.splitOn '\n') ("header".toList) [] []

/-- The per-section dispatch in the loop of `chunk_contract` (including its
`if not section_text.strip(): continue`). -/
def sectionChunks (cn ctxPre nm st : Chars) : List ContractChunk :=
  if pystrip st = [] then []
  else if nm = "far_clauses".toList then chunk_clause_section st cn ("far".toList)
  else if nm = "dfars_clauses".toList then chunk_clause_section st cn ("dfars".toList)
  else if nm = "clins".toList then chunk_clins_section st cn
  else if nm = "subcontractor_requirements".toList then chunk_subcontractor_section st cn
  else
    [{ text := ctxPre ++ pystrip st, contract_number := cn, sectionName := nm,
       chunk_type :=
         if nm = "scope_of_work".toList ∨ nm = "security_requirements".toList then nm
         else "general".toList }]

/-- The final loop of `chunk_contract`: merge the contract-level metadata
into every chunk and prepend the context prefix unless already present. -/
def postProcess (ctxPre : Chars) (cm : ChunkMeta) (c : ContractChunk) : ContractChunk :=
  { c with
    metadata := c.metadata.updateWith cm
    text := if pyStartsWith ("[Contract:".toList) c.text then c.text else ctxPre ++ c.text }

/-- `chunk_contract` (chunker.py). -/
def chunk_contract (text : Chars) : List ContractChunk :=
  let cn := extract_contract_number text
  let cm := extract_contract_metadata text
  let ctxPre := build_context_prefix cn cm
  (concatMap (fun p => sectionChunks cn ctxPre p.1 p.2) (split_into_sections text)).map
    (postProcess ctxPre cm)

/-! ## The contract record (`_merge_results` output / renderer input)

The record is the dict built by `_merge_results` and `_fill_defaults`; its
keys are fixed by those functions, so it becomes a structure.  A field read
by the renderer through `dict.get(k, default)` with a non-trivial default is
an `Option` (the default is applied at the read site); a field whose absence
is indistinguishable from its falsy default (`""`, `0`, `[]`) under every
read the code performs is stored plainly. -/

structure Agency where
  /-- `agency.get("name", "Unknown")` -/
  name : Option Chars := none
  code : Chars := []
deriving DecidableEq

structure Contractor where
  /-- `contractor.get("name", "Unknown")` -/
  name : Option Chars := none
  cage : Chars := []
  /-- `contractor.get("size", "unknown")` -/
  size : Option Chars := none
  uei : Chars := []
deriving DecidableEq

structure OptionPeriod where
  option_number : Nat
  start_date : Chars
  end_date : Chars
  /-- `opt.get("months", "?")` -/
  months : Option Nat := none
deriving DecidableEq

structure PoP where
  base_period_start : Chars := []
  /-- `pop.get("base_period_end", "TBD")` -/
  base_period_end : Option Chars := none
  /-- `pop.get("base_period_months", "?")` -/
  base_period_months : Option Nat := none
  option_periods : List OptionPeriod := []
deriving DecidableEq

structure Clin where
  clin_number : Chars
  description : Chars
  /-- `clin.get("type", "FFP")` -/
  ctype : Option Chars := none
  /-- `clin.get("quantity", 1)` -/
  quantity : Option Nat := none
  /-- `clin.get("unit", "Lot")` -/
  unit : Option Chars := none
  /-- `clin.get("unit_price", 0)` -/
  unit_price : Option ℚ := none
  /-- `clin.get("total_price", 0)` -/
  total_price : Option ℚ := none
deriving DecidableEq

structure Clause where
  number : Chars
  title : Chars := []
  /-- `clause.get("text")`, truthy test only: absent and `""` coincide. -/
  body : Chars := []
  prescription : Chars := []
  /-- `clause.get("flowdown")`, truthy test only. -/
  flowdown : Bool := false
deriving DecidableEq

structure SubReq where
  subcontractor_name : Chars
  cage_code : Chars := []
  /-- `sub.get("business_size", "unknown")` -/
  business_size : Option Chars := none
  /-- `sub.get("estimated_value")`, truthy: `some 0` behaves as absent. -/
  estimated_value : Option ℚ := none
  scope : Chars := []
  flowdown_clauses : List Chars := []
deriving DecidableEq

structure Contract where
  contract_number : Chars
  parent_idiq : Option Chars := none
  contract_type_name : Chars := []
  contract_type : Chars := []
  agency : Agency := {}
  contracting_officer : Chars := []
  contractor : Contractor := {}
  idiq_vehicle : Option Chars := none
  naics_code : Chars := []
  psc_code : Chars := []
  value : ℚ := 0
  ceiling_value : Option ℚ := none
  funded_amount : ℚ := 0
  period_of_performance : PoP := {}
  /-- `contract.get("scope_of_work", "Not available.")` at the renderer. -/
  scope_of_work : Option Chars := none
  clins : List Clin := []
  /-- `contract["clauses"]["far"]` -/
  far_clauses : List Clause := []
  /-- `contract["clauses"]["dfars"]` -/
  dfars_clauses : List Clause := []
  subcontractor_requirements : List SubReq := []
  security_requirements : List Chars := []
  special_provisions : List Chars := []
  domain : Option Chars := none
  is_dod : Bool := false
  synthetic : Bool := false
deriving DecidableEq

/-! ## `_generate_document_text` (hybrid_extractor.py)

A line-by-line transcription of the renderer; the `lines` list is built as
the head line (always `CONTRACT NUMBER: …`) consed onto the remaining
blocks, and the result is `"\n".join(lines)`.  Python `hash`-based `id` is
not rendered and is not modelled (it is process-randomised). -/

/-- Truthiness-gated single line. -/
def lineIf (b : Bool) (l : Chars) : List Chars := if b then [l] else []

def clinLines (clin : Clin) : List Chars :=
  [("  CLIN ".toList ++ clin.clin_number ++ ": ".toList ++ clin.description),
   ("    Type: ".toList ++ (clin.ctype.getD ("FFP".toList)) ++ " | Qty: ".toList ++
    natDigitChars (clin.quantity.getD 1) ++ " ".toList ++ (clin.unit.getD ("Lot".toList)) ++
    " | Unit Price: $".toList ++ pyMoney (clin.unit_price.getD 0) ++
    " | Total: $".toList ++ pyMoney (clin.total_price.getD 0))]

def farClauseLines (cl : Clause) : List Chars :=
  ("  FAR ".toList ++ cl.number ++ " - ".toList ++ cl.title) ::
  lineIf (!cl.body.isEmpty) ("    ".toList ++ cl.body) ++ [[]]

def dfarsClauseLines (cl : Clause) : List Chars :=
  ("  DFARS ".toList ++ cl.number ++ " - ".toList ++ cl.title ++
   (if cl.flowdown then " [MANDATORY FLOWDOWN]".toList else [])) ::
  lineIf (!cl.body.isEmpty) ("    ".toList ++ cl.body) ++ [[]]

def optPeriodLine (opt : OptionPeriod) : Chars :=
  "Option Period ".toList ++ natDigitChars opt.option_number ++ ": ".toList ++
  opt.start_date ++ " through ".toList ++ opt.end_date ++ " (".toList ++
  ((opt.months.map natDigitChars).getD ("?".toList)) ++ " months)".toList

def subLines (sub : SubReq) : List Chars :=
  ("  Subcontractor: ".toList ++ sub.subcontractor_name ++
   (if !sub.cage_code.isEmpty then " (CAGE: ".toList ++ sub.cage_code ++ ")".toList else [])) ::
  ("    Business Size: ".toList ++ (sub.business_size.getD ("unknown".toList))) ::
  (match sub.estimated_value with
   | some v => if v = 0 then [] else ["    Estimated Value: $".toList ++ pyMoney v]
   | none => []) ++
  lineIf (!sub.scope.isEmpty) ("    Scope: ".toList ++ sub.scope) ++
  lineIf (!sub.flowdown_clauses.isEmpty)
    ("    Flowdown Clauses: ".toList ++ joinSep (", ".toList) sub.flowdown_clauses) ++ [[]]

/-- All lines after the first of `_generate_document_text`. -/
def docRest (c : Contract) : List Chars :=
  (match c.parent_idiq with
   | some p => if p.isEmpty then [] else [("PARENT IDIQ CONTRACT: ".toList ++ p)]
   | none => []) ++
  ("CONTRACT TYPE: ".toList ++ c.contract_type_name ++ " (".toList ++ c.contract_type ++ ")".toList) ::
  ("CONTRACTING AGENCY: ".toList ++ (c.agency.name.getD ("Unknown".toList)) ++ " (".toList ++
    c.agency.code ++ ")".toList) ::
  ("CONTRACTING OFFICER: ".toList ++ c.contracting_officer) ::
  [] ::
  ("--- CONTRACTOR INFORMATION ---".toList) ::
  ("Contractor: ".toList ++ (c.contractor.name.getD ("Unknown".toList))) ::
  (lineIf (!c.contractor.cage.isEmpty) ("CAGE Code: ".toList ++ c.contractor.cage) ++
   ("Business Size: ".toList ++ (c.contractor.size.getD ("unknown".toList))) ::
   lineIf (!c.contractor.uei.isEmpty) ("DUNS/UEI: ".toList ++ c.contractor.uei) ++
   [] ::
   (match c.idiq_vehicle with
    | some v => if v.isEmpty then [] else [("CONTRACT VEHICLE: ".toList ++ v), []]
    | none => []) ++
   lineIf (!c.naics_code.isEmpty) ("NAICS CODE: ".toList ++ c.naics_code) ++
   lineIf (!c.psc_code.isEmpty) ("PSC CODE: ".toList ++ c.psc_code) ++
   (if !c.naics_code.isEmpty || !c.psc_code.isEmpty then [([] : Chars)] else []) ++
   ("--- TOTAL CONTRACT VALUE ---".toList) ::
   lineIf (c.value ≠ 0) ("Base Period Value: $".toList ++ pyMoney c.value) ++
   (match c.ceiling_value with
    | some v => if v = 0 then [] else [("Contract Ceiling: $".toList ++ pyMoney v)]
    | none => []) ++
   lineIf (c.funded_amount ≠ 0) ("Funded Amount: $".toList ++ pyMoney c.funded_amount) ++
   [] ::
   ("--- PERIOD OF PERFORMANCE ---".toList) ::
   lineIf (!c.period_of_performance.base_period_start.isEmpty)
     ("Base Period: ".toList ++ c.period_of_performance.base_period_start ++
      " through ".toList ++ (c.period_of_performance.base_period_end.getD ("TBD".toList)) ++
      " (".toList ++
      ((c.period_of_performance.base_period_months.map natDigitChars).getD ("?".toList)) ++
      " months)".toList) ++
   (c.period_of_performance.option_periods.map optPeriodLine) ++
   [] ::
   ("--- STATEMENT OF WORK ---".toList) ::
   (c.scope_of_work.getD ("Not available.".toList)) ::
   [] ::
   ("--- CONTRACT LINE ITEMS (CLINs) ---".toList) ::
   (concatMap clinLines c.clins ++
    lineIf c.clins.isEmpty ("  No CLINs extracted.".toList) ++
    [] ::
    ("--- APPLICABLE FAR CLAUSES ---".toList) ::
    (concatMap farClauseLines c.far_clauses ++
     (if c.far_clauses.isEmpty then [("  No FAR clauses extracted.".toList), []] else []) ++
     ("--- APPLICABLE DFARS CLAUSES ---".toList) ::
     ((if c.dfars_clauses.isEmpty then [("  No DFARS clauses extracted.".toList), []]
       else concatMap dfarsClauseLines c.dfars_clauses) ++
      (if !c.subcontractor_requirements.isEmpty then
        ("--- SUBCONTRACTOR REQUIREMENTS ---".toList) ::
          concatMap subLines c.subcontractor_requirements
       else []) ++
      (if !c.security_requirements.isEmpty then
        ("--- SECURITY REQUIREMENTS ---".toList) ::
          (c.security_requirements.map (fun r => "  - ".toList ++ r) ++ [[]])
       else []) ++
      (if !c.special_provisions.isEmpty then
        ("--- SPECIAL CONTRACT PROVISIONS ---".toList) ::
          (c.special_provisions.map (fun p => "  ".toList ++ p) ++ [[]])
       else []) ++
      [("--- END OF CONTRACT ---".toList)]))))

/-- `_generate_document_text` (hybrid_extractor.py). -/
def generate_document_text (c : Contract) : Chars :=
  joinSep ("\n".toList) (("CONTRACT NUMBER: ".toList ++ c.contract_number) :: docRest c)

/-! ## `extract_dollar_values` (regex_extractors.py) -/

/-- Case-insensitive literal match at the head (re.IGNORECASE on ASCII). -/
def icStarts : Chars → Chars → Bool
  | [], _ => true
  | _ :: _, [] => false
  | a :: as, b :: bs => a.toLower == b.toLower && icStarts as bs

/-- Match a label alternative `w₁\s+w₂\s+…` case-insensitively at the head,
returning the remainder.  The greedy `\s+` runs never backtrack here: every
follower word starts with a letter, which is not whitespace. -/
def matchWordsAt : List Chars → Chars → Option Chars
  | [], s => some s
  | [w], s => if icStarts w s then some (s.drop w.length) else none
  | w :: w2 :: ws, s =>
    if icStarts w s then
      let s1 := s.drop w.length
      let r := wsRun s1
      if r = 0 then none else matchWordsAt (w2 :: ws) (s1.drop r)
    else none

/-- Tail `[:\s]*\$?([\d,]+(?:\.\d{2})?)` of the labelled money patterns.
The greedy `[:\s]*` run and the optional `$` cannot backtrack usefully (no
run character is a `$` or a digit), so: skip colons/whitespace, an optional
dollar sign, then a non-empty `[\d,]+` run and an optional `.` with exactly
two digits.  Returns group 1. -/
def moneyTail (s : Chars) : Option Chars :=
  let r := s.dropWhile (fun c => c == ':' || pyWs c)
  let r2 := match r with | '$' :: t => t | _ => r
  let man := r2.takeWhile digitComma
  if man.isEmpty then none
  else
    some (man ++
      (match r2.drop man.length with
       | '.' :: d1 :: d2 :: _ => if d1.isDigit && d2.isDigit then ['.', d1, d2] else []
       | _ => []))

/-- Try the alternatives of one labelled pattern, in source order, at one
position (regex alternation with the shared tail). -/
def tryMoneyAt : List (List Chars) → Chars → Option Chars
  | [], _ => none
  | a :: rest, s =>
    match matchWordsAt a s with
    | some s1 =>
      match moneyTail s1 with
      | some g => some g
      | none => tryMoneyAt rest s
    | none => tryMoneyAt rest s

/-- `re.search` of one labelled money pattern: leftmost position wins. -/
def searchMoney (alts : List (List Chars)) : Chars → Option Chars
  | [] => none
  | s@(_ :: t) =>
    match tryMoneyAt alts s with
    | some g => some g
    | none => searchMoney alts t

def VALUE_ALTS : List (List Chars) :=
  [["Base".toList, "Period".toList, "Value".toList],
   ["Total".toList, "Contract".toList, "Value".toList],
   ["Contract".toList, "Value".toList],
   ["Base".toList, "Value".toList]]

def CEILING_ALTS : List (List Chars) :=
  [["Contract".toList, "Ceiling".toList],
   ["Ceiling".toList, "Value".toList],
   ["Ceiling".toList, "Amount".toList],
   ["Maximum".toList, "Value".toList]]

def FUNDED_ALTS : List (List Chars) :=
  [["Funded".toList, "Amount".toList],
   ["Amount".toList, "Funded".toList],
   ["Obligated".toList, "Amount".toList],
   ["Funded".toList, "Value".toList]]

/-- `float(group.replace(",", ""))` for a `[\d,]+(?:\.\d{2})?` group;
`none` is the `ValueError` on a comma-only mantissa with no fraction. -/
def parseMoneyGroup (g : Chars) : Option ℚ :=
  let man := g.takeWhile digitComma
  let fr := match g.drop man.length with | '.' :: ds => ds | _ => []
  decimalOfParts (man.filter (fun c => c != ',')) fr

/-- `re.findall(r"\$\s*([\d,]+(?:\.\d{2})?)", text)`: all non-overlapping
matches, left to right, resuming after each match end. -/
def dollarFindAux : Nat → Chars → List Chars
  | 0, _ => []
  | _ + 1, [] => []
  | fuel + 1, '$' :: t2 =>
    let r := t2.dropWhile pyWs
    let man := r.takeWhile digitComma
    if man.isEmpty then dollarFindAux fuel t2
    else
      let rest0 := r.drop man.length
      match rest0 with
      | '.' :: d1 :: d2 :: rest1 =>
        if d1.isDigit && d2.isDigit then (man ++ ['.', d1, d2]) :: dollarFindAux fuel rest1
        else man :: dollarFindAux fuel rest0
      | _ => man :: dollarFindAux fuel rest0
  | fuel + 1, _ :: t => dollarFindAux fuel t

def dollarFindall (s : Chars) : List Chars := dollarFindAux (s.length + 1) s

/-- The result dict of `extract_dollar_values`: each field is
(amount, confidence) when set. -/
structure DollarValues where
  value : Option (ℚ × ℚ) := none
  ceiling_value : Option (ℚ × ℚ) := none
  funded_amount : Option (ℚ × ℚ) := none
deriving DecidableEq

/-- `extract_dollar_values` (regex_extractors.py): the three labelled
patterns at confidence 0.9 (a field is set only when its search matches and
the group parses); if no field was set, all `$` figures are collected and,
when every one of them parses, the largest becomes `value` at confidence
0.5 (one unparsable figure aborts the whole fallback — the `except
ValueError` wraps the full list comprehension). -/
def extract_dollar_values (text : Chars) : DollarValues :=
  let v := (searchMoney VALUE_ALTS text).bind parseMoneyGroup
  let cl := (searchMoney CEILING_ALTS text).bind parseMoneyGroup
  let f := (searchMoney FUNDED_ALTS text).bind parseMoneyGroup
  if v.isSome || cl.isSome || f.isSome then
    { value := v.map (fun q => (q, mkRat 9 10)),
      ceiling_value := cl.map (fun q => (q, mkRat 9 10)),
      funded_amount := f.map (fun q => (q, mkRat 9 10)) }
  else
    match dollarFindall text with
    | [] => {}
    | g :: gs =>
      let parsed := (g :: gs).map parseMoneyGroup
      if parsed.all Option.isSome then
        match parsed.reduceOption with
        | [] => {}
        | a :: as => { value := some (as.foldl max a, mkRat 1 2) }
      else {}

/-! ## `_merge_results`, `_fill_defaults` and the extraction report -/

/-- `ExtractionReport` (hybrid_extractor.py).  `field_sources` is an
insertion-ordered association list mirroring the Python dict. -/
structure ExtractionReport where
  total_fields : Nat := 0
  regex_extracted : Nat := 0
  llm_extracted : Nat := 0
  defaulted : Nat := 0
  confidence_avg : ℚ := 0
  warnings : List Chars := []
  field_sources : List (Chars × Chars) := []
deriving DecidableEq

/-- `d[k] = v` on an insertion-ordered dict. -/
def setKey (m : List (Chars × Chars)) (k v : Chars) : List (Chars × Chars) :=
  if m.any (fun p => p.1 == k) then m.map (fun p => if p.1 == k then (k, v) else p)
  else m ++ [(k, v)]

/-- `d.setdefault(k, v)`. -/
def setDefaultKey (m : List (Chars × Chars)) (k v : Chars) : List (Chars × Chars) :=
  if m.any (fun p => p.1 == k) then m else m ++ [(k, v)]

/-- The per-field regex inputs of `_merge_results`: an absent field of
`regex_results` and a present `ExtractionResult` whose `value` is `None`
are indistinguishable to `_get_regex`, so both are `none`; a present value
carries (value, confidence).  `raw_match`/`field_name` are audit-only and
not modelled. -/
structure RegexResults where
  contract_number : Option (Chars × ℚ) := none
  contract_type : Option (Chars × ℚ) := none
  agency : Option (Agency × ℚ) := none
  contracting_officer : Option (Chars × ℚ) := none
  contractor_name : Option (Chars × ℚ) := none
  cage : Option (Chars × ℚ) := none
  size : Option (Chars × ℚ) := none
  uei : Option (Chars × ℚ) := none
  naics_code : Option (Chars × ℚ) := none
  psc_code : Option (Chars × ℚ) := none
  value : Option (ℚ × ℚ) := none
  ceiling_value : Option (ℚ × ℚ) := none
  funded_amount : Option (ℚ × ℚ) := none
  base_period_start : Option (Chars × ℚ) := none
  base_period_end : Option (Chars × ℚ) := none
  base_period_months : Option (Nat × ℚ) := none
  option_periods : Option (List OptionPeriod × ℚ) := none
  clins : Option (List Clin × ℚ) := none
  far_clauses : Option (List Clause × ℚ) := none
  dfars_clauses : Option (List Clause × ℚ) := none
  subcontractors : Option (List SubReq × ℚ) := none

/-- The acceptance test of `_get_regex`: value present and confidence at
least the 0.5 floor. -/
def accept {α : Type} (r : Option (α × ℚ)) : Option α :=
  match r with
  | some (v, c) => if c ≥ mkRat 1 2 then some v else none
  | none => none

/-- The report bookkeeping `_get_regex` performs when it returns a value. -/
def noteRegex (rep : ExtractionReport) (accepted : Bool) (fname : String) : ExtractionReport :=
  if accepted then
    { rep with regex_extracted := rep.regex_extracted + 1,
               field_sources := setKey rep.field_sources fname.toList ("regex".toList) }
  else rep

/-- Python `x or d` for an optional string (empty string is falsy). -/
def pyOrStr (o : Option Chars) (d : Chars) : Chars :=
  match o with
  | some v => if v.isEmpty then d else v
  | none => d

/-- The final `CONTRACT_TYPE_NAMES` dict of hybrid_extractor.py: the
comprehension over `CONTRACT_TYPES` keeps the last writer per code (so the
short keys of length four overwrite the long names for CPFF/CPAF/IDIQ/CPIF),
then the explicit `update` restores the long names for all codes but CPIF. -/
def CONTRACT_TYPE_NAMES : List (Chars × Chars) :=
  [("FFP".toList, "Firm-Fixed-Price".toList),
   ("CPFF".toList, "Cost-Plus-Fixed-Fee".toList),
   ("CPAF".toList, "Cost-Plus-Award-Fee".toList),
   ("T&M".toList, "Time-and-Materials".toList),
   ("LH".toList, "Labor-Hour".toList),
   ("IDIQ".toList, "Indefinite Delivery/Indefinite Quantity".toList),
   ("BPA".toList, "Blanket Purchase Agreement".toList),
   ("CPIF".toList, "CPIF".toList),
   ("FPI".toList, "Fixed-Price Incentive".toList)]

/-- `dict.get(k, d)` on an association list. -/
def lookupD (m : List (Chars × Chars)) (k d : Chars) : Chars :=
  ((m.find? (fun p => p.1 == k)).map (fun p => p.2)).getD d

def DOD_AGENCIES : List Chars :=
  ["DOD".toList, "ARMY".toList, "NAVY".toList, "USAF".toList, "DISA".toList, "DLA".toList]

/-! ## `extract_freeform_fields` (llm_extractors.py) -/

/-- The dict returned by the freeform-field extractors. -/
structure LlmFields where
  scope_of_work : Option Chars := none
  security_requirements : List Chars := []
  special_provisions : List Chars := []
  domain : Option Chars := none
  confidence : ℚ := 0
  /-- The `llm_error` diagnostic key, set only on generative failure. -/
  llm_error : Option Chars := none
deriving DecidableEq

/-- The four keyword heuristics of `_extract_with_keywords`
(`_extract_scope_keywords`, `_extract_security_keywords`,
`_extract_provisions_keywords`, `_detect_domain`).  The claims about the
freeform extractor hold for every behaviour of these four pure functions, so
they are parameters rather than transcriptions; the surrounding control flow
is transcribed. -/
structure KeywordFns where
  scopeF : Chars → Option Chars
  securityF : Chars → List Chars
  provisionsF : Chars → List Chars
  domainF : Chars → Option Chars

/-- `_extract_with_keywords` (llm_extractors.py): the four heuristics plus
the fixed confidence 0.3. -/
def extract_with_keywords (K : KeywordFns) (text : Chars) : LlmFields :=
  { scope_of_work := K.scopeF text,
    security_requirements := K.securityF text,
    special_provisions := K.provisionsF text,
    domain := K.domainF text,
    confidence := mkRat 3 10 }

/-- The fields the `try` body of `_extract_with_llm` produces when the API
call, the fence stripping and the JSON parse all succeed. -/
structure LlmSuccess where
  scope_of_work : Option Chars := none
  security_requirements : List Chars := []
  special_provisions : List Chars := []
  domain : Option Chars := none

/-- `_extract_with_llm` (llm_extractors.py).  The whole `try` body — client
construction, the network call, fence stripping, `json.loads` and the field
reads — is the external `attempt`; `Except.error e` is any exception with
message `e` (`str(e)`).  On success the result carries confidence 0.85; on
any failure the function falls back to `_extract_with_keywords` and tags the
result with the failure cause under `llm_error`. -/
def extract_with_llm (K : KeywordFns) (text : Chars)
    (attempt : Except Chars LlmSuccess) : LlmFields :=
  match attempt with
  | .ok r =>
    { scope_of_work := r.scope_of_work,
      security_requirements := r.security_requirements,
      special_provisions := r.special_provisions,
      domain := r.domain,
      confidence := mkRat 17 20 }
  | .error e => { extract_with_keywords K text with llm_error := some e }

/-- `extract_freeform_fields` (llm_extractors.py): generative mode needs
`mode == "anthropic"` and a truthy (non-empty) API key; anything else takes
the keyword strategy. -/
def extract_freeform_fields (K : KeywordFns) (attempt : Except Chars LlmSuccess)
    (mode : Chars) (api_key : Option Chars) (text : Chars) : LlmFields :=
  if mode == "anthropic".toList && (match api_key with | some k => !k.isEmpty | none => false) then
    extract_with_llm K text attempt
  else extract_with_keywords K text

/-- `_merge_results` (hybrid_extractor.py), threading the report that the
source mutates in place.  Each `_get_regex` call is an `accept` plus a
`noteRegex`, in source order.  The `id` field (`hash(...) % 100000`) is not
modelled: Python string hashing is process-randomised and nothing reads it. -/
def merge_results (rr : RegexResults) (llm : LlmFields) (rep0 : ExtractionReport) :
    Contract × ExtractionReport :=
  let cnr := accept rr.contract_number
  let rep := noteRegex rep0 cnr.isSome "contract_number"
  let cn := pyOrStr cnr ("UNKNOWN".toList)
  let ctr := accept rr.contract_type
  let rep := noteRegex rep ctr.isSome "contract_type"
  let ct := pyOrStr ctr ("FFP".toList)
  let ctName := lookupD CONTRACT_TYPE_NAMES ct ct
  let agr := accept rr.agency
  let rep := noteRegex rep agr.isSome "agency"
  let ag := agr.getD { name := some ("Unknown Agency".toList), code := "UNKNOWN".toList }
  let offr := accept rr.contracting_officer
  let rep := noteRegex rep offr.isSome "contracting_officer"
  let off := pyOrStr offr []
  let cnamr := accept rr.contractor_name
  let rep := noteRegex rep cnamr.isSome "contractor_name"
  let cager := accept rr.cage
  let rep := noteRegex rep cager.isSome "cage"
  let sizer := accept rr.size
  let rep := noteRegex rep sizer.isSome "size"
  let ueir := accept rr.uei
  let rep := noteRegex rep ueir.isSome "uei"
  let contractor : Contractor :=
    { name := some (pyOrStr cnamr ("Unknown Contractor".toList)),
      cage := pyOrStr cager [],
      size := some (pyOrStr sizer ("unknown".toList)),
      uei := pyOrStr ueir [] }
  let naicsr := accept rr.naics_code
  let rep := noteRegex rep naicsr.isSome "naics_code"
  let pscr := accept rr.psc_code
  let rep := noteRegex rep pscr.isSome "psc_code"
  let valr := accept rr.value
  let rep := noteRegex rep valr.isSome "value"
  let value := valr.getD 0
  let ceilr := accept rr.ceiling_value
  let rep := noteRegex rep ceilr.isSome "ceiling_value"
  let fundr := accept rr.funded_amount
  let rep := noteRegex rep fundr.isSome "funded_amount"
  let funded := match fundr with
    | some q => if q = 0 then value else q
    | none => value
  let bpsr := accept rr.base_period_start
  let rep := noteRegex rep bpsr.isSome "base_period_start"
  let bper := accept rr.base_period_end
  let rep := noteRegex rep bper.isSome "base_period_end"
  let bpmr := accept rr.base_period_months
  let rep := noteRegex rep bpmr.isSome "base_period_months"
  let bpm := match bpmr with
    | some n => if n = 0 then 12 else n
    | none => 12
  let optv := match rr.option_periods with
    | some (ops, _) => ops
    | none => []
  let rep := if !optv.isEmpty then
      { rep with regex_extracted := rep.regex_extracted + 1,
                 field_sources := setKey rep.field_sources ("option_periods".toList) ("regex".toList) }
    else rep
  let pop : PoP :=
    { base_period_start := pyOrStr bpsr [],
      base_period_end := some (pyOrStr bper []),
      base_period_months := some bpm,
      option_periods := optv }
  let clinsr := accept rr.clins
  let rep := noteRegex rep clinsr.isSome "clins"
  let clins := (clinsr.getD [])
  let farr := accept rr.far_clauses
  let rep := noteRegex rep farr.isSome "far_clauses"
  let dfarr := accept rr.dfars_clauses
  let rep := noteRegex rep dfarr.isSome "dfars_clauses"
  let subsr := accept rr.subcontractors
  let rep := noteRegex rep subsr.isSome "subcontractors"
  let scope := pyOrStr llm.scope_of_work []
  let rep := if !scope.isEmpty then
      { rep with llm_extracted := rep.llm_extracted + 1,
                 field_sources := setKey rep.field_sources ("scope_of_work".toList) ("llm".toList) }
    else rep
  let rep := if !llm.security_requirements.isEmpty then
      { rep with llm_extracted := rep.llm_extracted + 1,
                 field_sources := setKey rep.field_sources ("security_requirements".toList) ("llm".toList) }
    else rep
  let rep := if !llm.special_provisions.isEmpty then
      { rep with llm_extracted := rep.llm_extracted + 1,
                 field_sources := setKey rep.field_sources ("special_provisions".toList) ("llm".toList) }
    else rep
  ({ contract_number := cn,
     parent_idiq := none,
     contract_type_name := ctName,
     contract_type := ct,
     agency := ag,
     contracting_officer := off,
     contractor := contractor,
     idiq_vehicle := none,
     naics_code := pyOrStr naicsr [],
     psc_code := pyOrStr pscr [],
     value := value,
     ceiling_value := ceilr,
     funded_amount := funded,
     period_of_performance := pop,
     scope_of_work := some scope,
     clins := clins,
     far_clauses := farr.getD [],
     dfars_clauses := dfarr.getD [],
     subcontractor_requirements := subsr.getD [],
     security_requirements := llm.security_requirements,
     special_provisions := llm.special_provisions,
     domain := llm.domain }, rep)

/-- `Path(filename).stem` for a POSIX filename without trailing slash: the
last `/`-component, with its last suffix removed when the last dot is
neither the first nor the last character of that component. -/
def pathStem (filename : Chars) : Chars :=
  let nm := (filename.splitOn '/').getLastD []
  let pre := nm.reverse.takeWhile (fun c => c != '.')
  if pre.length = nm.length then nm
  else
    let i := nm.length - 1 - pre.length
    if 0 < i ∧ i < nm.length - 1 then nm.take i else nm

/-- The filename-fallback warning of `_fill_defaults`. -/
def warnFilename (stem : Chars) : Chars :=
  "Contract number not found in text; using filename: ".toList ++ stem

/-- The apostrophe character, built numerically to keep it out of string
literals. -/
def apos : Char := Char.ofNat 39

/-- `"Scope of work not found — try 'anthropic' mode for better
extraction"` (the quotes around anthropic are apostrophes). -/
def warnScope : Chars :=
  "Scope of work not found — try ".toList ++ apos ::
    "anthropic".toList ++ apos :: " mode for better extraction".toList

/-- The contract-number fallback branch at the head of `_fill_defaults`. -/
def fdContractNumber (c : Contract) (filename : Chars) (rep : ExtractionReport) :
    Contract × ExtractionReport :=
  if c.contract_number = "UNKNOWN".toList then
    let stem := pathStem filename
    let c1 := if stem.length > 5 then { c with contract_number := stem } else c
    let rep1 := if stem.length > 5 then
        { rep with warnings := rep.warnings ++ [warnFilename stem] }
      else rep
    (c1, { rep1 with defaulted := rep1.defaulted + 1,
                     field_sources := setKey rep1.field_sources ("contract_number".toList) ("default".toList) })
  else (c, rep)

/-- The missing-officer warning of `_fill_defaults`. -/
def fdOfficer (c : Contract) (rep : ExtractionReport) : ExtractionReport :=
  if c.contracting_officer.isEmpty then
    { rep with warnings := rep.warnings ++ ["Contracting officer name not found".toList],
               defaulted := rep.defaulted + 1,
               field_sources := setDefaultKey rep.field_sources ("contracting_officer".toList) ("default".toList) }
  else rep

/-- The missing-value warning of `_fill_defaults` (`not value or value == 0.0`
collapses to a zero test, the falsy float being 0.0). -/
def fdValue (c : Contract) (rep : ExtractionReport) : ExtractionReport :=
  if c.value = (0 : ℚ) then
    { rep with warnings := rep.warnings ++ ["Contract dollar value not found".toList],
               defaulted := rep.defaulted + 1,
               field_sources := setDefaultKey rep.field_sources ("value".toList) ("default".toList) }
  else rep

/-- The missing-CLIN warning of `_fill_defaults`. -/
def fdClins (c : Contract) (rep : ExtractionReport) : ExtractionReport :=
  if c.clins.isEmpty then
    { rep with warnings := rep.warnings ++ ["No CLINs found — contract may be a summary document".toList] }
  else rep

/-- The missing-scope branch of `_fill_defaults`. -/
def fdScope (c : Contract) (rep : ExtractionReport) : Contract × ExtractionReport :=
  let scopeMissing := match c.scope_of_work with
    | some v => v.isEmpty
    | none => true
  (if scopeMissing then { c with scope_of_work := some [] } else c,
   if scopeMissing then
     { rep with warnings := rep.warnings ++ [warnScope],
                defaulted := rep.defaulted + 1,
                field_sources := setDefaultKey rep.field_sources ("scope_of_work".toList) ("default".toList) }
   else rep)

/-- The missing-period warning of `_fill_defaults`. -/
def fdPop (c : Contract) (rep : ExtractionReport) : ExtractionReport :=
  if c.period_of_performance.base_period_start.isEmpty then
    { rep with warnings := rep.warnings ++ ["Period of performance dates not found".toList] }
  else rep

/-- `_fill_defaults` (hybrid_extractor.py), as the sequence of its source
branches (each stage transcribed above in source order).  `contract["id"]`
(randomised Python hash) is not modelled. -/
def fill_defaults (c0 : Contract) (filename : Chars) (rep0 : ExtractionReport) :
    Contract × ExtractionReport :=
  let st := fdContractNumber c0 filename rep0
  let c := { st.1 with is_dod := DOD_AGENCIES.contains st.1.agency.code, synthetic := false }
  let rep := fdOfficer c st.2
  let rep := fdValue c rep
  let rep := fdClins c rep
  let sc := fdScope c rep
  let rep := fdPop sc.1 sc.2
  (sc.1, rep)

/-! ## `validate_docx` (docx_parser.py) and the extraction gate -/

/-- A Word payload as `validate_docx` observes it: either `_open_docx`
raises (corrupt/unreadable input, message `excMsg`) or it yields a document
whose paragraph texts are `paragraphs`.  Tables, headings and styles are
not read by validation and are not modelled. -/
inductive DocxPayload where
  | unreadable (excMsg : Chars)
  | readable (paragraphs : List Chars)

/-- The accumulation loop of `validate_docx`, with its early `break` once
more than 100 characters have been gathered. -/
def gatherText : List Chars → Chars → Chars
  | [], acc => acc
  | p :: ps, acc =>
    let acc2 := acc ++ p
    if acc2.length > 100 then acc2 else gatherText ps acc2

/-- `validate_docx` (docx_parser.py): (is_valid, error_message). -/
def validate_docx : DocxPayload → Bool × Chars
  | .unreadable e => (false, "Cannot read file as a Word document: ".toList ++ e)
  | .readable ps =>
    let tc := gatherText ps []
    if (pystrip tc).length < 50 then
      (false, ("Word document appears to be empty or contains very little text. " ++
               "Please upload a contract document with substantive content.").toList)
    else (true, [])

/-- `ExtractionResult` (hybrid_extractor.py).  `contract_data` is `none`
for the literal empty dict `{}` of the failure path and `some c` for the
populated record of the success path. -/
structure ExtractionResult where
  contract_data : Option Contract
  document_text : Chars
  report : ExtractionReport
  is_valid : Bool := true
  error : Chars := []
deriving DecidableEq

/-- `extract_contract_from_docx` (hybrid_extractor.py), steps 1 and the
early return.  Steps 2–6 (full-content parse, regex and LLM extraction,
merge, defaults, rendering) run only on the valid branch and are the
`validBranch` parameter: the claims about this function concern the
validation gate, which holds for every continuation. -/
def extract_contract_from_docx (validBranch : DocxPayload → Chars → ExtractionResult)
    (payload : DocxPayload) (filename : Chars) : ExtractionResult :=
  let v := validate_docx payload
  if v.1 then validBranch payload filename
  else
    { contract_data := none, document_text := [], report := {},
      is_valid := false, error := v.2 }

/-! # Theorems

General lemmas about the string primitives first, then one theorem per
frozen claim (with its witness or counterexample). -/

theorem pyStartsWith_self_append (n r : Chars) : pyStartsWith n (n ++ r) = true := by
  induction n with
  | nil => rfl
  | cons a as ih => simp [pyStartsWith, ih]

theorem ne_nil_of_pyStartsWith {n s : Chars} (hn : n ≠ []) (h : pyStartsWith n s = true) :
    s ≠ [] := by
  cases n with
  | nil => exact absurd rfl hn
  | cons a as =>
    cases s with
    | nil => simp [pyStartsWith] at h
    | cons b bs => simp

theorem takeWhile_append_cons {p : Char → Bool} {xs : Chars} (y : Char) (ys : Chars)
    (hx : ∀ x ∈ xs, p x = true) (hy : p y = false) :
    ((xs ++ y :: ys).takeWhile p) = xs := by
  induction xs with
  | nil => simp [List.takeWhile_cons, hy]
  | cons a as ih =>
    have ha : p a = true := hx a (by simp)
    simp only [List.cons_append, List.takeWhile_cons, ha, if_true]
    rw [ih (fun x hx' => hx x (by simp [hx']))]

theorem searchLabel_at_head {lbl s g : Chars}
    (h1 : pyStartsWith lbl s = true) (hne : s ≠ [])
    (h2 : starLazyToEol (s.drop lbl.length) = some g) :
    searchLabel lbl s = some g := by
  cases s with
  | nil => exact absurd rfl hne
  | cons a t => simp [searchLabel, h1, h2]

theorem head_not_ws_of_pystrip {c : Char} {cs : Chars}
    (h : pystrip (c :: cs) = c :: cs) : pyWs c = false := by
  by_contra hws
  have hws' : pyWs c = true := by
    cases hcc : pyWs c with
    | false => exact absurd hcc hws
    | true => rfl
  have hlen : (pystrip (c :: cs)).length ≤ cs.length := by
    unfold pystrip
    rw [List.dropWhile_cons, if_pos hws']
    calc ((((cs.dropWhile pyWs).reverse).dropWhile pyWs).reverse).length
        = (((cs.dropWhile pyWs).reverse).dropWhile pyWs).length := List.length_reverse _
      _ ≤ ((cs.dropWhile pyWs).reverse).length :=
          ((List.dropWhile_suffix pyWs).sublist).length_le
      _ = (cs.dropWhile pyWs).length := List.length_reverse _
      _ ≤ cs.length := ((List.dropWhile_suffix pyWs).sublist).length_le
  rw [h] at hlen
  simp at hlen

/-! ## Claim C1 — round-trip through the renderer -/

theorem extract_at_head (c0 : Char) (cs rest : Chars)
    (h0 : pyWs c0 = false) (hnl : ∀ ch ∈ c0 :: cs, ch ≠ '\n') :
    extract_contract_number ("CONTRACT NUMBER: ".toList ++ ((c0 :: cs) ++ '\n' :: rest))
      = pystrip (c0 :: cs) := by
  have hsplit : "CONTRACT NUMBER: ".toList = "CONTRACT NUMBER:".toList ++ [' '] := by decide
  have hmain : "CONTRACT NUMBER: ".toList ++ ((c0 :: cs) ++ '\n' :: rest)
      = "CONTRACT NUMBER:".toList ++ (' ' :: ((c0 :: cs) ++ '\n' :: rest)) := by
    rw [hsplit, List.append_assoc]
    rfl
  have hdrop : ("CONTRACT NUMBER:".toList ++ (' ' :: ((c0 :: cs) ++ '\n' :: rest))).drop
      ("CONTRACT NUMBER:".toList).length = ' ' :: ((c0 :: cs) ++ '\n' :: rest) :=
    List.drop_left _ _
  have htail : starLazyToEol (' ' :: ((c0 :: cs) ++ '\n' :: rest)) = some (c0 :: cs) := by
    unfold starLazyToEol
    rw [List.dropWhile_cons]
    have : pyWs ' ' = true := by decide
    rw [if_pos this]
    have hdw : ((c0 :: cs) ++ '\n' :: rest).dropWhile pyWs = (c0 :: cs) ++ '\n' :: rest := by
      rw [List.cons_append, List.dropWhile_cons, if_neg (by simp [h0])]
    rw [hdw]
    have htw : ((c0 :: cs) ++ '\n' :: rest).takeWhile (fun x => x != '\n') = c0 :: cs :=
      takeWhile_append_cons _ _ (fun x hx => by simpa using hnl x hx) (by decide)
    simp only [List.cons_append] at htw ⊢
    rw [htw]
  have hsearch : searchLabel ("CONTRACT NUMBER:".toList)
      ("CONTRACT NUMBER:".toList ++ (' ' :: ((c0 :: cs) ++ '\n' :: rest))) = some (c0 :: cs) :=
    searchLabel_at_head (pyStartsWith_self_append _ _)
      (ne_nil_of_pyStartsWith (by decide) (pyStartsWith_self_append _ _))
      (by rw [hdrop]; exact htail)
  rw [hmain]
  unfold extract_contract_number
  rw [hsearch]

theorem docRest_ne_nil (c : Contract) : docRest c ≠ [] := by
  unfold docRest
  cases c.parent_idiq with
  | none =>
    intro h
    rcases List.append_eq_nil.mp h with ⟨-, h2⟩
    cases h2
  | some p =>
    intro h
    rcases List.append_eq_nil.mp h with ⟨-, h2⟩
    cases h2

theorem joinSep_cons_of_ne (sep a : Chars) {ls : List Chars} (h : ls ≠ []) :
    joinSep sep (a :: ls) = a ++ sep ++ joinSep sep ls := by
  cases ls with
  | nil => exact absurd rfl h
  | cons b t => rfl

theorem generate_head (c : Contract) :
    generate_document_text c =
      "CONTRACT NUMBER: ".toList ++
        (c.contract_number ++ '\n' :: joinSep ("\n".toList) (docRest c)) := by
  unfold generate_document_text
  rw [joinSep_cons_of_ne _ _ (docRest_ne_nil c)]
  simp [List.append_assoc]

/-- Claim C1, amended: rendering a contract record with
`_generate_document_text` and re-extracting the identifier with the
chunker's `extract_contract_number` returns the record's own contract
number, provided the stored number is non-empty, contains no line break and
carries no leading or trailing whitespace.  (The unamended claim, over every
record, fails: see `renderer_roundtrip_counterexample`.) -/
theorem renderer_roundtrip (c : Contract) (hne : c.contract_number ≠ [])
    (hnl : ∀ ch ∈ c.contract_number, ch ≠ '\n')
    (hstrip : pystrip c.contract_number = c.contract_number) :
    extract_contract_number (generate_document_text c) = c.contract_number := by
  obtain ⟨c0, cs, hcn⟩ : ∃ c0 cs, c.contract_number = c0 :: cs := by
    cases h : c.contract_number with
    | nil => exact absurd h hne
    | cons a t => exact ⟨a, t, rfl⟩
  rw [hcn] at hstrip hnl
  have h0 : pyWs c0 = false := head_not_ws_of_pystrip hstrip
  rw [generate_head, hcn, extract_at_head c0 cs _ h0 hnl, hstrip]

/-- A record whose identifier carries a trailing space: the renderer prints
it verbatim, the extractor strips it. -/
def cBad : Contract := { contract_number := "TEST-001 ".toList }

/-- Claim C1, counterexample to the unamended statement: for the record
`cBad` (contract number `"TEST-001 "`, with a trailing space) the round
trip returns the stripped identifier, not the record's own. -/
theorem renderer_roundtrip_counterexample :
    extract_contract_number (generate_document_text cBad) ≠ cBad.contract_number := by
  decide

def cGood : Contract := { contract_number := "TEST-001".toList }

/-- Witness for `renderer_roundtrip` at a concrete record. -/
theorem renderer_roundtrip_witness :
    extract_contract_number (generate_document_text cGood) = cGood.contract_number :=
  renderer_roundtrip cGood (by decide) (by decide) (by decide)

/-! ## Claim C2 — the flowdown flag of clause chunks -/

theorem buildClauseChunks_flowdown (st cn ct : Chars) :
    ∀ ps, ∀ ch ∈ buildClauseChunks st cn ct ps,
      ch.metadata.flowdown = some (pyIn FLOWDOWN_MARKER ch.text) := by
  intro ps
  induction ps with
  | nil => intro ch h; cases h
  | cons p rest ih =>
    obtain ⟨i, num, title⟩ := p
    intro ch h
    rcases List.mem_cons.mp h with heq | hmem
    · subst heq; rfl
    · exact ih ch hmem

/-- Claim C2: in `chunk_clause_section`, when at least one `NUMBER - TITLE`
split point was recognised, every produced chunk's flowdown metadata flag
equals the presence of the literal `[MANDATORY FLOWDOWN]` marker in that
chunk's text; and no clause chunk whose text lacks the marker ever carries a
true flag (in the no-split-point case the flag is absent). -/
theorem clause_flowdown_flag (st cn ctype : Chars) :
    (clause_positions st ≠ [] →
      ∀ ch ∈ chunk_clause_section st cn ctype,
        ch.metadata.flowdown = some (pyIn FLOWDOWN_MARKER ch.text)) ∧
    (∀ ch ∈ chunk_clause_section st cn ctype,
      pyIn FLOWDOWN_MARKER ch.text = false → ch.metadata.flowdown ≠ some true) := by
  constructor
  · intro hne ch hch
    unfold chunk_clause_section at hch
    rw [if_neg (by simpa [List.isEmpty_iff] using hne)] at hch
    exact buildClauseChunks_flowdown st cn ctype _ ch hch
  · intro ch hch hmark
    unfold chunk_clause_section at hch
    by_cases hps : (clause_positions st).isEmpty = true
    · rw [if_pos hps] at hch
      by_cases hstrip : pystrip st ≠ []
      · rw [if_pos hstrip] at hch
        rcases List.mem_singleton.mp hch with rfl
        intro hcontra
        cases hcontra
      · rw [if_neg hstrip] at hch
        cases hch
    · rw [if_neg hps] at hch
      rw [buildClauseChunks_flowdown st cn ctype _ ch hch, hmark]
      intro hcontra
      cases hcontra

def c2sec : Chars :=
  "  FAR 52.219-8 - Subcontracts\n    [MANDATORY FLOWDOWN] applies\n".toList

/-- Witness for `clause_flowdown_flag` at a concrete section with one
recognised split point. -/
theorem clause_flowdown_flag_witness :
    ((chunk_clause_section c2sec ("X".toList) ("far".toList)).get ⟨0, by decide⟩).metadata.flowdown
      = some (pyIn FLOWDOWN_MARKER
          ((chunk_clause_section c2sec ("X".toList) ("far".toList)).get ⟨0, by decide⟩).text) := by
  have h := (clause_flowdown_flag c2sec ("X".toList) ("far".toList)).1 (by decide)
  exact h _ (List.get_mem _ _ _)

/-! ## Claim C3 — the concrete single-clause scenario -/

def c3input : Chars :=
  ("CONTRACT NUMBER: TEST-001\n--- APPLICABLE FAR CLAUSES ---\n" ++
   "  FAR 52.202-1 - Definitions\n    text\n--- END OF CONTRACT ---\n").toList

/-- Claim C3: chunking the scenario text yields exactly one chunk of clause
type, with clause number `52.202-1`, title `Definitions` and flowdown
metadata `false`. -/
theorem scenario_far_clause :
    ((chunk_contract c3input).filter (fun c => c.chunk_type == "clause".toList)).map
      (fun c => (c.clause_number, c.clause_title, c.metadata.flowdown))
      = [(some ("52.202-1".toList), some ("Definitions".toList), some false)] := by
  decide

/-! ## Claim C4 — validation failure returns immediately -/

/-- Claim C4: whenever document validation fails (unreadable payload or
below-minimum text), `extract_contract_from_docx` returns at once — for
every possible continuation of the pipeline — with `is_valid` false, the
validator's non-empty error message, the empty contract record and empty
document text. -/
theorem invalid_docx_fails_fast (validBranch : DocxPayload → Chars → ExtractionResult)
    (payload : DocxPayload) (filename : Chars)
    (h : (validate_docx payload).1 = false) :
    extract_contract_from_docx validBranch payload filename =
      { contract_data := none, document_text := [], report := {},
        is_valid := false, error := (validate_docx payload).2 } ∧
    (validate_docx payload).2 ≠ [] := by
  constructor
  · unfold extract_contract_from_docx
    simp [h]
  · cases payload with
    | unreadable e => simp [validate_docx]
    | readable ps =>
      simp only [validate_docx] at h ⊢
      by_cases hlt : (pystrip (gatherText ps [])).length < 50
      · rw [if_pos hlt]
        decide
      · rw [if_neg hlt] at h
        exact absurd h (by decide)

/-- Witness for `invalid_docx_fails_fast` on a concrete corrupt payload. -/
theorem invalid_docx_fails_fast_witness :
    extract_contract_from_docx
        (fun _ _ => { contract_data := none, document_text := [], report := {} })
        (DocxPayload.unreadable ("bad zip".toList)) ("x.docx".toList) =
      { contract_data := none, document_text := [], report := {},
        is_valid := false,
        error := (validate_docx (DocxPayload.unreadable ("bad zip".toList))).2 } ∧
    (validate_docx (DocxPayload.unreadable ("bad zip".toList))).2 ≠ [] :=
  invalid_docx_fails_fast _ _ ("x.docx".toList) (by decide)

/-! ## Claim C5 — unlabeled maximum dollar figure -/

theorem foldl_max_mem (a : ℚ) (as : List ℚ) : as.foldl max a ∈ a :: as := by
  induction as generalizing a with
  | nil => simp
  | cons b bs ih =>
    rw [List.foldl_cons]
    rcases List.mem_cons.mp (ih (max a b)) with h | h
    · rcases max_choice a b with hm | hm
      · rw [h, hm]; exact List.mem_cons_self _ _
      · rw [h, hm]; exact List.mem_cons_of_mem _ (List.mem_cons_self _ _)
    · exact List.mem_cons_of_mem _ (List.mem_cons_of_mem _ h)

theorem le_foldl_max (a : ℚ) (as : List ℚ) : ∀ x ∈ a :: as, x ≤ as.foldl max a := by
  induction as generalizing a with
  | nil =>
    intro x hx
    rcases List.mem_singleton.mp hx with rfl
    exact le_refl _
  | cons b bs ih =>
    intro x hx
    rw [List.foldl_cons]
    rcases List.mem_cons.mp hx with rfl | hx'
    · exact le_trans (le_max_left x b) (ih (max x b) _ (List.mem_cons_self _ _))
    · rcases List.mem_cons.mp hx' with rfl | hx''
      · exact le_trans (le_max_right a x) (ih (max a x) _ (List.mem_cons_self _ _))
      · exact ih (max a b) x (List.mem_cons_of_mem _ hx'')

/-- Claim C5, amended: when none of the three labelled monetary patterns
matches and at least one `$` figure appears, `extract_dollar_values`
returns the largest figure as the base value at confidence exactly 0.5 and
sets neither a ceiling-value nor a funded-amount entry — provided every
matched `$` figure parses (a figure whose digits are all commas raises
`ValueError` and aborts the whole fallback: see
`unlabeled_max_counterexample`). -/
theorem unlabeled_max_fallback (t : Chars)
    (h1 : searchMoney VALUE_ALTS t = none)
    (h2 : searchMoney CEILING_ALTS t = none)
    (h3 : searchMoney FUNDED_ALTS t = none)
    (hne : dollarFindall t ≠ [])
    (hp : ((dollarFindall t).map parseMoneyGroup).all Option.isSome = true) :
    ∃ m : ℚ,
      extract_dollar_values t = { value := some (m, mkRat 1 2) } ∧
      m ∈ ((dollarFindall t).map parseMoneyGroup).reduceOption ∧
      ∀ a ∈ ((dollarFindall t).map parseMoneyGroup).reduceOption, a ≤ m := by
  cases hdf : dollarFindall t with
  | nil => exact absurd hdf hne
  | cons g gs =>
    rw [hdf] at hp
    have hg0 : (parseMoneyGroup g).isSome = true := by
      have h' := hp
      simp only [List.map_cons, List.all_cons, Bool.and_eq_true] at h'
      exact h'.1
    obtain ⟨a0, ha0⟩ := Option.isSome_iff_exists.mp hg0
    refine ⟨(((gs.map parseMoneyGroup).reduceOption).foldl max a0), ?_, ?_, ?_⟩
    · unfold extract_dollar_values
      rw [h1, h2, h3, hdf]
      have hp' := hp
      rw [List.map_cons, ha0] at hp'
      simp only [Option.none_bind, Option.isSome_none, Bool.or_self, Bool.false_eq_true,
        if_false, hp, if_true, List.map_cons, ha0, List.reduceOption_cons_of_some,
        Option.map_none]
      rw [if_pos hp']
    · rw [List.map_cons, ha0, List.reduceOption_cons_of_some]
      exact foldl_max_mem a0 _
    · rw [List.map_cons, ha0, List.reduceOption_cons_of_some]
      exact le_foldl_max a0 _

def c5text : Chars := "$, $5".toList

/-- Claim C5, counterexample to the unamended statement: in `"$, $5"` no
labelled pattern matches and the figure `$5` appears, yet the extractor
returns nothing — the stray `"$,"` also matches the `$`-figure pattern, its
comma-only digits raise `ValueError`, and the `except` around the whole
list comprehension discards the fallback. -/
theorem unlabeled_max_counterexample :
    searchMoney VALUE_ALTS c5text = none ∧
    searchMoney CEILING_ALTS c5text = none ∧
    searchMoney FUNDED_ALTS c5text = none ∧
    pyIn ("$5".toList) c5text = true ∧
    dollarFindall c5text ≠ [] ∧
    extract_dollar_values c5text = {} := by
  decide

def c5w : Chars := "pay $100 and $2,000.50 now".toList

/-- Witness for `unlabeled_max_fallback` at a concrete text. -/
theorem unlabeled_max_fallback_witness :
    ∃ m : ℚ, extract_dollar_values c5w = { value := some (m, mkRat 1 2) } ∧
      m ∈ ((dollarFindall c5w).map parseMoneyGroup).reduceOption ∧
      ∀ a ∈ ((dollarFindall c5w).map parseMoneyGroup).reduceOption, a ≤ m :=
  unlabeled_max_fallback c5w (by decide) (by decide) (by decide) (by decide) (by decide)

/-! ## Claim C6 — generative failure falls back at confidence 0.3 -/

/-- Claim C6: in generative mode (mode `anthropic` with a truthy API key),
when the generative call inside `extract_freeform_fields` raises any
exception, the function still returns a value — the keyword fallback tagged
with the failure cause — whose confidence is exactly 0.3 and whose
`llm_error` records the exception; this holds for every behaviour of the
four keyword heuristics. -/
theorem llm_failure_fallback (K : KeywordFns) (text e k : Chars) (hk : k ≠ []) :
    extract_freeform_fields K (Except.error e) ("anthropic".toList) (some k) text
      = { extract_with_keywords K text with llm_error := some e } ∧
    (extract_freeform_fields K (Except.error e) ("anthropic".toList) (some k) text).confidence
      = mkRat 3 10 ∧
    (extract_freeform_fields K (Except.error e) ("anthropic".toList) (some k) text).llm_error
      = some e := by
  have hkE : k.isEmpty = false := by
    cases k with
    | nil => exact absurd rfl hk
    | cons a t => rfl
  refine ⟨?_, ?_, ?_⟩ <;>
    simp [extract_freeform_fields, hkE, extract_with_llm, extract_with_keywords]

def kwTrivial : KeywordFns :=
  { scopeF := fun _ => none, securityF := fun _ => [],
    provisionsF := fun _ => [], domainF := fun _ => none }

/-- Witness for `llm_failure_fallback` on a concrete failing call. -/
theorem llm_failure_fallback_witness :
    extract_freeform_fields kwTrivial (Except.error ("timeout".toList))
        ("anthropic".toList) (some ("sk-key".toList)) ("contract text".toList)
      = { extract_with_keywords kwTrivial ("contract text".toList) with
          llm_error := some ("timeout".toList) } ∧
    (extract_freeform_fields kwTrivial (Except.error ("timeout".toList))
        ("anthropic".toList) (some ("sk-key".toList)) ("contract text".toList)).confidence
      = mkRat 3 10 ∧
    (extract_freeform_fields kwTrivial (Except.error ("timeout".toList))
        ("anthropic".toList) (some ("sk-key".toList)) ("contract text".toList)).llm_error
      = some ("timeout".toList) :=
  llm_failure_fallback kwTrivial ("contract text".toList) ("timeout".toList)
    ("sk-key".toList) (by decide)

/-! ## Claim C8 — the human-scale value label -/

theorem valueLabelOf_spec (fa bv cv : Option ℚ) :
    (∀ q : ℚ, qTruthy fa = some q →
      valueLabelOf fa bv cv = some (format_value_label q ++ " funded".toList)) ∧
    (qTruthy fa = none → ∀ q : ℚ, qTruthy bv = some q →
      valueLabelOf fa bv cv = some (format_value_label q ++ " base value".toList)) ∧
    (qTruthy fa = none → qTruthy bv = none → ∀ q : ℚ, qTruthy cv = some q →
      valueLabelOf fa bv cv = some (format_value_label q ++ " ceiling".toList)) ∧
    (qTruthy fa = none → qTruthy bv = none → qTruthy cv = none →
      valueLabelOf fa bv cv = none) := by
  refine ⟨?_, ?_, ?_, ?_⟩
  · intro q hq
    unfold valueLabelOf
    rw [hq]
  · intro hf q hq
    unfold valueLabelOf
    rw [hf, hq]
  · intro hf hb q hq
    unfold valueLabelOf
    rw [hf, hb, hq]
  · intro hf hb hc
    unfold valueLabelOf
    rw [hf, hb, hc]

/-- Claim C8, amended: the context-header value label is derived from the
extracted monetary fields preferring funded over base over ceiling, but via
Python truthiness — a field extracted as zero falls through exactly like an
absent one (see `value_label_counterexample`): the label carries suffix
`funded` whenever the funded amount is extracted non-zero, else `base
value` for a non-zero base, else `ceiling` for a non-zero ceiling, and no
label is set when no non-zero amount was extracted. -/
theorem value_label_preference (t : Chars) :
    (∀ q : ℚ, qTruthy (extract_contract_metadata t).funded_amount = some q →
      (extract_contract_metadata t).value_label
        = some (format_value_label q ++ " funded".toList)) ∧
    (qTruthy (extract_contract_metadata t).funded_amount = none →
      ∀ q : ℚ, qTruthy (extract_contract_metadata t).base_value = some q →
        (extract_contract_metadata t).value_label
          = some (format_value_label q ++ " base value".toList)) ∧
    (qTruthy (extract_contract_metadata t).funded_amount = none →
      qTruthy (extract_contract_metadata t).base_value = none →
      ∀ q : ℚ, qTruthy (extract_contract_metadata t).ceiling_value = some q →
        (extract_contract_metadata t).value_label
          = some (format_value_label q ++ " ceiling".toList)) ∧
    (qTruthy (extract_contract_metadata t).funded_amount = none →
      qTruthy (extract_contract_metadata t).base_value = none →
      qTruthy (extract_contract_metadata t).ceiling_value = none →
      (extract_contract_metadata t).value_label = none) :=
  valueLabelOf_spec ((extract_contract_metadata t).funded_amount)
    ((extract_contract_metadata t).base_value) ((extract_contract_metadata t).ceiling_value)

def c8text : Chars := "Funded Amount: $0\nBase Period Value: $5\n".toList

/-- Claim C8, counterexample to the unamended statement: with a funded
amount extracted as `$0`, the label is built from the base value, not from
the funded amount. -/
theorem value_label_counterexample :
    (extract_contract_metadata c8text).funded_amount = some 0 ∧
    (extract_contract_metadata c8text).value_label = some ("$5 base value".toList) := by
  decide

def c8w : Chars := "Funded Amount: $2,000,000\n".toList

/-- Witness for `value_label_preference` on a non-zero funded amount. -/
theorem value_label_preference_witness :
    (extract_contract_metadata c8w).value_label
      = some (format_value_label 2000000 ++ " funded".toList) :=
  (value_label_preference c8w).1 2000000 (by decide)

/-! ## Claim C7 — a recognised section with zero split points gives one chunk -/

theorem hasNonWs_of_pyStartsWith {n h : Chars} (hp : pyStartsWith n h = true)
    (hn : hasNonWs n = true) : hasNonWs h = true := by
  induction n generalizing h with
  | nil => simp [hasNonWs] at hn
  | cons a as ih =>
    cases h with
    | nil => simp [pyStartsWith] at hp
    | cons b bs =>
      simp only [pyStartsWith, Bool.and_eq_true, beq_iff_eq] at hp
      obtain ⟨rfl, hp2⟩ := hp
      simp only [hasNonWs, List.any_cons, Bool.or_eq_true] at hn ⊢
      rcases hn with h1 | h2
      · exact Or.inl h1
      · exact Or.inr (by simpa [hasNonWs] using ih hp2 (by simpa [hasNonWs] using h2))

theorem hasNonWs_of_pyIn {n : Chars} : ∀ {h : Chars}, pyIn n h = true →
    hasNonWs n = true → hasNonWs h = true := by
  intro h
  induction h with
  | nil =>
    intro hp hn
    unfold pyIn at hp
    exact hasNonWs_of_pyStartsWith hp hn
  | cons b bs ih =>
    intro hp hn
    unfold pyIn at hp
    simp only [Bool.or_eq_true] at hp
    rcases hp with h1 | h2
    · exact hasNonWs_of_pyStartsWith h1 hn
    · have := ih h2 hn
      simp only [hasNonWs, List.any_cons, Bool.or_eq_true]
      exact Or.inr (by simpa [hasNonWs] using this)

theorem mem_dropWhile_of_not {p : Char → Bool} {c : Char} :
    ∀ {s : Chars}, c ∈ s → p c = false → c ∈ s.dropWhile p := by
  intro s
  induction s with
  | nil => intro h; cases h
  | cons a as ih =>
    intro hmem hpc
    rw [List.dropWhile_cons]
    by_cases hpa : p a = true
    · rw [if_pos hpa]
      rcases List.mem_cons.mp hmem with rfl | hmem'
      · rw [hpa] at hpc; cases hpc
      · exact ih hmem' hpc
    · rw [if_neg hpa]
      exact hmem

theorem pystrip_ne_nil_of_hasNonWs {s : Chars} (h : hasNonWs s = true) :
    pystrip s ≠ [] := by
  obtain ⟨c, hc, hcp⟩ := List.any_eq_true.mp h
  have hcw : pyWs c = false := by
    cases hw : pyWs c with
    | false => rfl
    | true => rw [hw] at hcp; cases hcp
  intro hnil
  have h1 : c ∈ s.dropWhile pyWs := mem_dropWhile_of_not hc hcw
  have h2 : c ∈ (s.dropWhile pyWs).reverse := List.mem_reverse.mpr h1
  have h3 : c ∈ ((s.dropWhile pyWs).reverse).dropWhile pyWs := mem_dropWhile_of_not h2 hcw
  have h4 : c ∈ pystrip s := by
    unfold pystrip
    exact List.mem_reverse.mpr h3
  rw [hnil] at h4
  cases h4

theorem joinSep_ne_nil_of_hasNonWs {sep : Chars} {ls : List Chars}
    (h : hasNonWs (joinSep sep ls) = true) : ls ≠ [] := by
  intro hnil
  rw [hnil] at h
  simp [joinSep, hasNonWs] at h

theorem hasNonWs_append_left {a b : Chars} (h : hasNonWs a = true) :
    hasNonWs (a ++ b) = true := by
  simp only [hasNonWs, List.any_append, Bool.or_eq_true]
  exact Or.inl h

theorem joinSep_append_single (sep y : Chars) :
    ∀ (xs : List Chars), xs ≠ [] →
      joinSep sep (xs ++ [y]) = joinSep sep xs ++ sep ++ y := by
  intro xs
  induction xs with
  | nil => intro h; exact absurd rfl h
  | cons a t ih =>
    intro _
    cases t with
    | nil => rfl
    | cons b t2 =>
      have hrec := ih (by simp)
      simp only [List.cons_append, joinSep, List.append_eq] at hrec ⊢
      rw [hrec]
      simp [List.append_assoc]

theorem hasNonWs_joinSep_append {sep l : Chars} {cur : List Chars}
    (h : hasNonWs (joinSep sep cur) = true) :
    hasNonWs (joinSep sep (cur ++ [l])) = true := by
  have hne : cur ≠ [] := joinSep_ne_nil_of_hasNonWs h
  rw [joinSep_append_single sep l cur hne]
  exact hasNonWs_append_left (hasNonWs_append_left h)

theorem markers_hasNonWs : ∀ p ∈ SECTION_MARKERS, hasNonWs p.1 = true := by decide

theorem hasNonWs_of_firstMarker {l nm : Chars} (h : firstMarker l = some nm) :
    hasNonWs l = true := by
  unfold firstMarker at h
  cases hf : SECTION_MARKERS.find? (fun p => pyIn p.1 l) with
  | none => rw [hf] at h; cases h
  | some pr =>
    have hp0 := List.find?_some hf
    have hp : pyIn pr.1 l = true := hp0
    have hm : pr ∈ SECTION_MARKERS := List.mem_of_find?_eq_some hf
    exact hasNonWs_of_pyIn hp (markers_hasNonWs pr hm)

theorem splitGo_nonheader_hasNonWs :
    ∀ (ls : List Chars) (nm : Chars) (cur : List Chars) (acc : List (Chars × Chars)),
      (∀ p ∈ acc, p.1 ≠ "header".toList → hasNonWs p.2 = true) →
      (nm ≠ "header".toList → hasNonWs (joinSep ("\n".toList) cur) = true) →
      ∀ p ∈ splitGo ls nm cur acc, p.1 ≠ "header".toList → hasNonWs p.2 = true := by
  intro ls
  induction ls with
  | nil =>
    intro nm cur acc hacc hcur p hp hh
    unfold splitGo at hp
    rcases List.mem_append.mp hp with h1 | h2
    · exact hacc p h1 hh
    · unfold flushSec at h2
      by_cases hc : cur.isEmpty = true
      · rw [if_pos hc] at h2; cases h2
      · rw [if_neg hc] at h2
        rcases List.mem_singleton.mp h2 with rfl
        exact hcur hh
  | cons l ls ih =>
    intro nm cur acc hacc hcur p hp hh
    unfold splitGo at hp
    cases hfm : firstMarker l with
    | some nm2 =>
      rw [hfm] at hp
      refine ih nm2 [l] (acc ++ flushSec nm cur) ?_ ?_ p hp hh
      · intro q hq hqh
        rcases List.mem_append.mp hq with h1 | h2
        · exact hacc q h1 hqh
        · unfold flushSec at h2
          by_cases hc : cur.isEmpty = true
          · rw [if_pos hc] at h2; cases h2
          · rw [if_neg hc] at h2
            rcases List.mem_singleton.mp h2 with rfl
            exact hcur hqh
      · intro _
        have : joinSep ("\n".toList) [l] = l := rfl
        rw [this]
        exact hasNonWs_of_firstMarker hfm
    | none =>
      rw [hfm] at hp
      by_cases hend : pystrip l = END_MARKER
      · rw [if_pos hend] at hp
        rcases List.mem_append.mp hp with h1 | h2
        · exact hacc p h1 hh
        · unfold flushSec at h2
          by_cases hc : cur.isEmpty = true
          · rw [if_pos hc] at h2; cases h2
          · rw [if_neg hc] at h2
            rcases List.mem_singleton.mp h2 with rfl
            exact hcur hh
      · rw [if_neg hend] at hp
        refine ih nm (cur ++ [l]) acc hacc ?_ p hp hh
        intro hnm
        exact hasNonWs_joinSep_append (hcur hnm)

theorem split_nonheader_hasNonWs (t : Chars) {nm st : Chars}
    (hmem : (nm, st) ∈ split_into_sections t) (hh : nm ≠ "header".toList) :
    hasNonWs st = true := by
  have := splitGo_nonheader_hasNonWs (t.splitOn '\n') ("header".toList) [] []
    (by intro p hp; cases hp) (by intro h; exact absurd rfl h)
  exact this (nm, st) hmem hh

/-- Zero recognised split points for the section kind at hand. -/
@[reducible] def noSplit (nm st : Chars) : Prop :=
  ((nm = "far_clauses".toList ∨ nm = "dfars_clauses".toList) → clause_positions st = []) ∧
  (nm = "clins".toList → clinPositions st = []) ∧
  (nm = "subcontractor_requirements".toList → subPositions st = [])

/-- Claim C7: every marker-recognised section (every section the chunker
names other than the implicit `header` prefix) in which zero split points
are found yields exactly one chunk in the per-section dispatch of
`chunk_contract` — never zero (marker sections are never blank, the marker
line itself being part of the section) and never more than one; and
`chunk_contract`'s output length is exactly the sum of the per-section
chunk counts, so that one chunk reaches the output. -/
theorem zero_split_single_chunk (t nm st cn ctxPre : Chars)
    (hmem : (nm, st) ∈ split_into_sections t) (hh : nm ≠ "header".toList)
    (hns : noSplit nm st) :
    (sectionChunks cn ctxPre nm st).length = 1 ∧
    (chunk_contract t).length =
      ((split_into_sections t).map
        (fun p => (sectionChunks (extract_contract_number t)
          ( build_context_prefix (extract_contract_number t) (extract_contract_metadata t))
          p.1 p.2).length)).sum := by
  constructor
  · have hnws : hasNonWs st = true := split_nonheader_hasNonWs t hmem hh
    have hstrip : pystrip st ≠ [] := pystrip_ne_nil_of_hasNonWs hnws
    unfold sectionChunks
    rw [if_neg hstrip]
    by_cases h1 : nm = "far_clauses".toList
    · rw [if_pos h1]
      unfold chunk_clause_section
      rw [hns.1 (Or.inl h1)]
      simp [hstrip]
    · rw [if_neg h1]
      by_cases h2 : nm = "dfars_clauses".toList
      · rw [if_pos h2]
        unfold chunk_clause_section
        rw [hns.1 (Or.inr h2)]
        simp [hstrip]
      · rw [if_neg h2]
        by_cases h3 : nm = "clins".toList
        · rw [if_pos h3]
          unfold chunk_clins_section
          rw [hns.2.1 h3]
          simp [hstrip]
        · rw [if_neg h3]
          by_cases h4 : nm = "subcontractor_requirements".toList
          · rw [if_pos h4]
            unfold chunk_subcontractor_section
            rw [hns.2.2 h4]
            simp [hstrip]
          · rw [if_neg h4]
            rfl
  · unfold chunk_contract concatMap
    rw [List.length_map, List.length_flatten, List.map_map]
    rfl

def c7input : Chars :=
  "--- TOTAL CONTRACT VALUE ---\nno figures\n--- END OF CONTRACT ---\n".toList

/-- Witness for `zero_split_single_chunk` on a concrete recognised section
with no split points. -/
theorem zero_split_single_chunk_witness :
    (sectionChunks ("UNKNOWN".toList) ("[Contract: UNKNOWN]\n".toList) ("value".toList)
      ("--- TOTAL CONTRACT VALUE ---\nno figures".toList)).length = 1 ∧
    (chunk_contract c7input).length =
      ((split_into_sections c7input).map
        (fun p => (sectionChunks (extract_contract_number c7input)
          ( build_context_prefix (extract_contract_number c7input)
            (extract_contract_metadata c7input))
          p.1 p.2).length)).sum :=
  zero_split_single_chunk c7input ("value".toList)
    ("--- TOTAL CONTRACT VALUE ---\nno figures".toList) ("UNKNOWN".toList)
    ("[Contract: UNKNOWN]\n".toList) (by decide) (by decide) (by decide)

/-! ## Claim C9 — identifier defaulting from the filename stem -/

theorem merge_contract_number (rr : RegexResults) (llm : LlmFields) (rep : ExtractionReport) :
    (merge_results rr llm rep).1.contract_number
      = pyOrStr (accept rr.contract_number) ("UNKNOWN".toList) := rfl

theorem fdScope_cn (c : Contract) (rep : ExtractionReport) :
    (fdScope c rep).1.contract_number = c.contract_number := by
  simp only [fdScope]
  repeat' split
  all_goals rfl

theorem fill_defaults_cn (c : Contract) (fn : Chars) (rep : ExtractionReport) :
    (fill_defaults c fn rep).1.contract_number
      = (fdContractNumber c fn rep).1.contract_number := by
  simp only [fill_defaults]
  rw [fdScope_cn]

theorem fdOfficer_warn (c : Contract) (rep : ExtractionReport) {w : Chars}
    (h : w ∈ rep.warnings) : w ∈ (fdOfficer c rep).warnings := by
  unfold fdOfficer
  split <;> simp [List.mem_append, h]

theorem fdValue_warn (c : Contract) (rep : ExtractionReport) {w : Chars}
    (h : w ∈ rep.warnings) : w ∈ (fdValue c rep).warnings := by
  unfold fdValue
  split <;> simp [List.mem_append, h]

theorem fdClins_warn (c : Contract) (rep : ExtractionReport) {w : Chars}
    (h : w ∈ rep.warnings) : w ∈ (fdClins c rep).warnings := by
  unfold fdClins
  split <;> simp [List.mem_append, h]

theorem fdScope_warn (c : Contract) (rep : ExtractionReport) {w : Chars}
    (h : w ∈ rep.warnings) : w ∈ (fdScope c rep).2.warnings := by
  simp only [fdScope]
  split <;> simp [List.mem_append, h]

theorem fdPop_warn (c : Contract) (rep : ExtractionReport) {w : Chars}
    (h : w ∈ rep.warnings) : w ∈ (fdPop c rep).warnings := by
  unfold fdPop
  split <;> simp [List.mem_append, h]

theorem fill_defaults_warn (c : Contract) (fn : Chars) (rep : ExtractionReport) {w : Chars}
    (h : w ∈ (fdContractNumber c fn rep).2.warnings) :
    w ∈ (fill_defaults c fn rep).2.warnings := by
  simp only [fill_defaults]
  exact fdPop_warn _ _ (fdScope_warn _ _ (fdClins_warn _ _ (fdValue_warn _ _ (fdOfficer_warn _ _ h))))

theorem fdContractNumber_unknown_long {c : Contract} {fn : Chars} (rep : ExtractionReport)
    (hcn : c.contract_number = "UNKNOWN".toList) (h5 : (pathStem fn).length > 5) :
    (fdContractNumber c fn rep).1.contract_number = pathStem fn ∧
    warnFilename (pathStem fn) ∈ (fdContractNumber c fn rep).2.warnings := by
  unfold fdContractNumber
  rw [if_pos hcn]
  constructor
  · simp only [if_pos h5]
  · simp only [if_pos h5]
    simp [List.mem_append]

theorem fdContractNumber_unknown_short {c : Contract} {fn : Chars} (rep : ExtractionReport)
    (hcn : c.contract_number = "UNKNOWN".toList) (h5 : ¬ (pathStem fn).length > 5) :
    (fdContractNumber c fn rep).1.contract_number = "UNKNOWN".toList := by
  unfold fdContractNumber
  rw [if_pos hcn]
  simp only [if_neg h5]
  exact hcn

/-- Claim C9, amended: when no contract identifier was extracted, the merge
stage installs the sentinel `UNKNOWN` and the defaulting stage replaces it
with the filename stem, appending the corresponding warning — but only when
the stem is longer than five characters; for a five-character-or-shorter
stem the sentinel remains (see `identifier_default_counterexample`).  In
both cases the resulting identifier is non-empty. -/
theorem identifier_default (rr : RegexResults) (llm : LlmFields)
    (rep0 : ExtractionReport) (filename : Chars)
    (h : accept rr.contract_number = none) :
    ((pathStem filename).length > 5 →
      (fill_defaults (merge_results rr llm rep0).1 filename
          (merge_results rr llm rep0).2).1.contract_number = pathStem filename ∧
      warnFilename (pathStem filename) ∈
        (fill_defaults (merge_results rr llm rep0).1 filename
          (merge_results rr llm rep0).2).2.warnings) ∧
    (¬ (pathStem filename).length > 5 →
      (fill_defaults (merge_results rr llm rep0).1 filename
          (merge_results rr llm rep0).2).1.contract_number = "UNKNOWN".toList) ∧
    (fill_defaults (merge_results rr llm rep0).1 filename
        (merge_results rr llm rep0).2).1.contract_number ≠ [] := by
  have hcn : (merge_results rr llm rep0).1.contract_number = "UNKNOWN".toList := by
    rw [merge_contract_number, h]
    rfl
  generalize (merge_results rr llm rep0).1 = c0 at hcn ⊢
  generalize (merge_results rr llm rep0).2 = r0
  refine ⟨fun h5 => ⟨?_, ?_⟩, fun h5 => ?_, ?_⟩
  · rw [fill_defaults_cn]
    exact (fdContractNumber_unknown_long r0 hcn h5).1
  · exact fill_defaults_warn _ _ _ (fdContractNumber_unknown_long r0 hcn h5).2
  · rw [fill_defaults_cn]
    exact fdContractNumber_unknown_short r0 hcn h5
  · rw [fill_defaults_cn]
    by_cases h5 : (pathStem filename).length > 5
    · rw [(fdContractNumber_unknown_long r0 hcn h5).1]
      intro hs
      rw [hs] at h5
      simp at h5
    · rw [fdContractNumber_unknown_short r0 hcn h5]
      decide

/-- Claim C9, counterexample to the unamended statement: with nothing
extracted and filename `ab.docx` (stem `ab`, length 2 ≤ 5) the identifier is
not set from the stem and no filename warning is appended — the sentinel
`UNKNOWN` survives. -/
theorem identifier_default_counterexample :
    (fill_defaults (merge_results {} {} {}).1 ("ab.docx".toList)
        (merge_results {} {} {}).2).1.contract_number = "UNKNOWN".toList ∧
    pathStem ("ab.docx".toList) = "ab".toList ∧
    (fill_defaults (merge_results {} {} {}).1 ("ab.docx".toList)
        (merge_results {} {} {}).2).1.contract_number ≠ pathStem ("ab.docx".toList) ∧
    ¬ warnFilename ("ab".toList) ∈
      (fill_defaults (merge_results {} {} {}).1 ("ab.docx".toList)
        (merge_results {} {} {}).2).2.warnings := by
  decide

/-- Witness for `identifier_default` on a long filename stem. -/
theorem identifier_default_witness :
    ((pathStem ("proposal-2031.docx".toList)).length > 5 →
      (fill_defaults (merge_results {} {} {}).1 ("proposal-2031.docx".toList)
          (merge_results {} {} {}).2).1.contract_number
        = pathStem ("proposal-2031.docx".toList) ∧
      warnFilename (pathStem ("proposal-2031.docx".toList)) ∈
        (fill_defaults (merge_results {} {} {}).1 ("proposal-2031.docx".toList)
          (merge_results {} {} {}).2).2.warnings) ∧
    (¬ (pathStem ("proposal-2031.docx".toList)).length > 5 →
      (fill_defaults (merge_results {} {} {}).1 ("proposal-2031.docx".toList)
          (merge_results {} {} {}).2).1.contract_number = "UNKNOWN".toList) ∧
    (fill_defaults (merge_results {} {} {}).1 ("proposal-2031.docx".toList)
        (merge_results {} {} {}).2).1.contract_number ≠ [] :=
  identifier_default {} {} {} ("proposal-2031.docx".toList) (by decide)

/-! ## Claim C10 — invariants of every chunk of `chunk_contract` -/

theorem joinSep_cons_ex (sep p : Chars) (ps : List Chars) :
    ∃ W, joinSep sep (p :: ps) = p ++ W := by
  cases ps with
  | nil => exact ⟨[], by simp [joinSep]⟩
  | cons b t => exact ⟨sep ++ joinSep sep (b :: t), by simp [joinSep, List.append_assoc]⟩

theorem pyStartsWith_append_of {n l : Chars} (r : Chars)
    (h : pyStartsWith n l = true) : pyStartsWith n (l ++ r) = true := by
  induction n generalizing l with
  | nil => rfl
  | cons a as ih =>
    cases l with
    | nil => simp [pyStartsWith] at h
    | cons b bs =>
      simp only [pyStartsWith, Bool.and_eq_true] at h ⊢
      exact ⟨h.1, ih h.2⟩

theorem bcp_startsWith (cn : Chars) (m : ChunkMeta) :
    pyStartsWith ("[Contract:".toList) ( build_context_prefix cn m) = true := by
  simp only [ build_context_prefix]
  obtain ⟨W, hW⟩ := joinSep_cons_ex (" | ".toList) ("Contract: ".toList ++ cn)
    (optPart "Officer: " m.contracting_officer ++ optPart "Agency: " m.contracting_agency ++
     optPart "Type: " m.contract_type ++ optPart "Value: " m.value_label)
  rw [hW]
  have hsh : "Contract: ".toList = "Contract:".toList ++ [' '] := by decide
  have hne : "[Contract:".toList = '[' :: "Contract:".toList := by decide
  have hbr : "[".toList = ['['] := rfl
  rw [hsh, hbr, hne]
  simp only [List.append_assoc, List.cons_append, List.nil_append]
  simp only [pyStartsWith, beq_self_eq_true, Bool.true_and]

theorem buildClauseChunks_cn (st cn ct : Chars) :
    ∀ ps, ∀ ch ∈ buildClauseChunks st cn ct ps, ch.contract_number = cn := by
  intro ps
  induction ps with
  | nil => intro ch h; cases h
  | cons p rest ih =>
    obtain ⟨i, num, title⟩ := p
    intro ch h
    rcases List.mem_cons.mp h with heq | hmem
    · subst heq; rfl
    · exact ih ch hmem

theorem buildClinChunks_cn (st cn : Chars) :
    ∀ ps, ∀ ch ∈ buildClinChunks st cn ps, ch.contract_number = cn := by
  intro ps
  induction ps with
  | nil => intro ch h; cases h
  | cons p rest ih =>
    obtain ⟨i, g⟩ := p
    intro ch h
    rcases List.mem_cons.mp h with heq | hmem
    · subst heq; rfl
    · exact ih ch hmem

theorem buildSubChunks_cn (st cn : Chars) :
    ∀ ps, ∀ ch ∈ buildSubChunks st cn ps, ch.contract_number = cn := by
  intro ps
  induction ps with
  | nil => intro ch h; cases h
  | cons p rest ih =>
    obtain ⟨i, g⟩ := p
    intro ch h
    rcases List.mem_cons.mp h with heq | hmem
    · subst heq; rfl
    · exact ih ch hmem

theorem sectionChunks_cn (cn ctxPre nm st : Chars) :
    ∀ ch ∈ sectionChunks cn ctxPre nm st, ch.contract_number = cn := by
  intro ch hch
  unfold sectionChunks at hch
  by_cases h0 : pystrip st = []
  · rw [if_pos h0] at hch; cases hch
  rw [if_neg h0] at hch
  by_cases h1 : nm = "far_clauses".toList
  · rw [if_pos h1] at hch
    unfold chunk_clause_section at hch
    by_cases hp : (clause_positions st).isEmpty = true
    · rw [if_pos hp, if_pos h0] at hch
      rcases List.mem_singleton.mp hch with rfl; rfl
    · rw [if_neg hp] at hch
      exact buildClauseChunks_cn st cn _ _ ch hch
  rw [if_neg h1] at hch
  by_cases h2 : nm = "dfars_clauses".toList
  · rw [if_pos h2] at hch
    unfold chunk_clause_section at hch
    by_cases hp : (clause_positions st).isEmpty = true
    · rw [if_pos hp, if_pos h0] at hch
      rcases List.mem_singleton.mp hch with rfl; rfl
    · rw [if_neg hp] at hch
      exact buildClauseChunks_cn st cn _ _ ch hch
  rw [if_neg h2] at hch
  by_cases h3 : nm = "clins".toList
  · rw [if_pos h3] at hch
    unfold chunk_clins_section at hch
    by_cases hp : (clinPositions st).isEmpty = true
    · rw [if_pos hp, if_pos h0] at hch
      rcases List.mem_singleton.mp hch with rfl; rfl
    · rw [if_neg hp] at hch
      exact buildClinChunks_cn st cn _ ch hch
  rw [if_neg h3] at hch
  by_cases h4 : nm = "subcontractor_requirements".toList
  · rw [if_pos h4] at hch
    unfold chunk_subcontractor_section at hch
    by_cases hp : (subPositions st).isEmpty = true
    · rw [if_pos hp, if_pos h0] at hch
      rcases List.mem_singleton.mp hch with rfl; rfl
    · rw [if_neg hp] at hch
      exact buildSubChunks_cn st cn _ ch hch
  rw [if_neg h4] at hch
  rcases List.mem_singleton.mp hch with rfl; rfl

/-- Claim C10, amended: every chunk of `chunk_contract` has a text that is
non-empty and starts with the context-prefix marker `[Contract:`, and its
`contract_number` equals the identifier extracted from the input (the
sentinel `UNKNOWN` when the labelled scan finds nothing).  The original
non-emptiness claim for `contract_number` fails — the extracted identifier
itself can be empty (see `chunk_number_empty_counterexample`). -/
theorem chunk_invariants (t : Chars) :
    ∀ ch ∈ chunk_contract t,
      pyStartsWith ("[Contract:".toList) ch.text = true ∧
      ch.text ≠ [] ∧
      ch.contract_number = extract_contract_number t := by
  intro ch hch
  unfold chunk_contract at hch
  rcases List.mem_map.mp hch with ⟨c', hc', rfl⟩
  have htext : pyStartsWith ("[Contract:".toList)
      (postProcess ( build_context_prefix (extract_contract_number t)
        (extract_contract_metadata t)) (extract_contract_metadata t) c').text = true := by
    simp only [postProcess]
    by_cases hs : pyStartsWith ("[Contract:".toList) c'.text = true
    · rw [if_pos hs]
      exact hs
    · rw [if_neg hs]
      exact pyStartsWith_append_of _ (bcp_startsWith _ _)
  refine ⟨htext, ne_nil_of_pyStartsWith (by decide) htext, ?_⟩
  have hc'' : c'.contract_number = extract_contract_number t := by
    unfold concatMap at hc'
    rcases List.mem_flatten.mp hc' with ⟨L, hL, hcL⟩
    rcases List.mem_map.mp hL with ⟨p, hp, rfl⟩
    exact sectionChunks_cn _ _ p.1 p.2 c' hcL
  exact hc''

def c10bad : Chars := "foo\nCONTRACT NUMBER: ".toList

/-- Claim C10, counterexample to the unamended statement: on this input the
identifier line holds only whitespace at the end of the input, the regex
backtracks to capture that whitespace, stripping empties it, and the single
emitted chunk carries an empty `contract_number` — neither a non-empty
identifier nor the sentinel `UNKNOWN`. -/
theorem chunk_number_empty_counterexample :
    (chunk_contract c10bad).map (fun c => c.contract_number) = [[]] ∧
    extract_contract_number c10bad = [] := by
  decide

def c10w : Chars := "CONTRACT NUMBER: W1\n--- STATEMENT OF WORK ---\nwork\n".toList

/-- Witness for `chunk_invariants` at a concrete chunk. -/
theorem chunk_invariants_witness :
    pyStartsWith ("[Contract:".toList) ((chunk_contract c10w).get ⟨0, by decide⟩).text = true ∧
    ((chunk_contract c10w).get ⟨0, by decide⟩).text ≠ [] ∧
    ((chunk_contract c10w).get ⟨0, by decide⟩).contract_number
      = extract_contract_number c10w :=
  chunk_invariants c10w _ (List.get_mem _ _ _)

end ContractIntel
